import Mathlib

/-!
Verification of the AWX-to-AAP migration scripts (`migrate_projects.py`,
`migrate_job_templates.py`) against their natural-language specification.

The Python code is shallowly embedded: Python dictionaries become ordered
association lists over `PyVal`, fallible Python code (code that can raise)
returns `Except String`, and the HTTP collaborators are abstracted as
explicit oracle functions passed to the orchestration models.
-/

set_option maxRecDepth 4000

namespace Mig

/-- Model of a Python value as it occurs in the migrated JSON records:
`None`, strings, integers, booleans and nested JSON objects. -/
inductive PyVal where
  | none
  | str (s : String)
  | int (n : Int)
  | bool (b : Bool)
  | obj (fields : List (String × PyVal))

/-- A Python dict with string keys, in insertion order. -/
abbrev PyDict := List (String × PyVal)

/-- First binding of key `k` (Python dict lookup; dicts keep keys unique). -/
def pyGet (d : PyDict) (k : String) : Option PyVal :=
  match d with
  | [] => Option.none
  | (k', v) :: rest => if k' = k then some v else pyGet rest k

/-- Python `d.get(k, dflt)`. -/
def pyGetD (d : PyDict) (k : String) (dflt : PyVal) : PyVal :=
  (pyGet d k).getD dflt

/-- Python `k in d`. -/
def pyHas (d : PyDict) (k : String) : Bool :=
  match d with
  | [] => false
  | (k', _) :: rest => k' = k || pyHas rest k

/-- Python `d[k] = v`: replace the value of the first binding of `k`
when present, otherwise append a new binding. -/
def pySet (d : PyDict) (k : String) (v : PyVal) : PyDict :=
  match d with
  | [] => [(k, v)]
  | (k', v') :: rest => if k' = k then (k', v) :: rest else (k', v') :: pySet rest k v

/-- Python truthiness of a value (`bool(v)`). -/
def PyVal.truthy : PyVal → Bool
  | .none => false
  | .str s => s ≠ ""
  | .int n => n ≠ 0
  | .bool b => b
  | .obj l => !l.isEmpty

/-- Python `a or b`. -/
def pyOr (a b : PyVal) : PyVal :=
  if a.truthy then a else b

/-- Python `v in (None, "")` (equality with `None` or the empty string). -/
def pyIsNoneOrEmpty : PyVal → Bool
  | .none => true
  | .str s => s = ""
  | _ => false

/-- Characters stripped by Python `str.strip()` with no argument
(the ASCII and Latin-1 whitespace; the scripts only handle such text). -/
def isPySpace (c : Char) : Bool :=
  c = ' ' || c = '\t' || c = '\n' || c = '\x0d' || c = '\x0b' || c = '\x0c' ||
  c = '\x1c' || c = '\x1d' || c = '\x1e' || c = '\x1f' ||
  c = '\x85' || c = '\xa0'

/-- Python `str.strip()` on a character list. -/
def pyStripList (cs : List Char) : List Char :=
  ((cs.dropWhile isPySpace).reverse.dropWhile isPySpace).reverse

/-- Python `str.strip()`. -/
def pyStrip (s : String) : String :=
  String.mk (pyStripList s.data)

/-- Python `str.lower()` (ASCII case folding; the scripts compare hosts,
schemes and type names that are ASCII). -/
def pyLowerList (cs : List Char) : List Char :=
  cs.map Char.toLower

/-- Python `str.lower()` on `String`. -/
def pyLower (s : String) : String :=
  String.mk (pyLowerList s.data)

/-- The redaction sentinels of `migrate_job_templates.REDACTIONS`. -/
def REDACTIONS : List String :=
  ["********", "*****", "******", "<redacted>", "<REDACTED>"]

/-- The replacement test of the first loop of `merge_email_config`:
`v in (None, "") or (isinstance(v, str) and v.strip() in REDACTIONS)`. -/
def needsSecret (v : PyVal) : Bool :=
  pyIsNoneOrEmpty v ||
    (match v with
     | .str s => decide (pyStrip s ∈ REDACTIONS)
     | _ => false)

/-- First loop of `merge_email_config`: for each snapshot item `(k, v)`,
when `v` is empty or redacted and `k` is in `secrets`, set `out[k]` to the
secret value. -/
def mergePass1 (out : PyDict) (items : List (String × PyVal)) (secrets : PyDict) : PyDict :=
  match items with
  | [] => out
  | (k, v) :: rest =>
      let out' := if needsSecret v && pyHas secrets k
                  then pySet out k (pyGetD secrets k .none)
                  else out
      mergePass1 out' rest secrets

/-- Second loop of `merge_email_config`: for each secret item `(k, v)`,
when `k` is absent from `out` or its current value is empty, set it. -/
def mergePass2 (out : PyDict) (items : List (String × PyVal)) : PyDict :=
  match items with
  | [] => out
  | (k, v) :: rest =>
      let out' := if !pyHas out k || pyIsNoneOrEmpty (pyGetD out k .none)
                  then pySet out k v
                  else out
      mergePass2 out' rest

/-- Embedding of `merge_email_config(src, secrets)`: copy `src`, run the
substitution loop over the snapshot of its items, then the addition loop
over `secrets`. -/
def merge_email_config (src secrets : PyDict) : PyDict :=
  mergePass2 (mergePass1 src src secrets) secrets

theorem pyGet_pySet_self (d : PyDict) (k : String) (v : PyVal) :
    pyGet (pySet d k v) k = some v := by
  induction d with
  | nil => simp [pySet, pyGet]
  | cons hd tl ih =>
      obtain ⟨k', v'⟩ := hd
      by_cases h : k' = k <;> simp [pySet, pyGet, h, ih]

theorem pyGet_pySet_ne (d : PyDict) (k k' : String) (v : PyVal) (h : k ≠ k') :
    pyGet (pySet d k v) k' = pyGet d k' := by
  induction d with
  | nil => simp [pySet, pyGet, h]
  | cons hd tl ih =>
      obtain ⟨k₀, v₀⟩ := hd
      by_cases h0 : k₀ = k
      · subst h0
        simp [pySet, pyGet, h]
      · simp [pySet, pyGet, h0, ih]

theorem pyHas_pySet_self (d : PyDict) (k : String) (v : PyVal) :
    pyHas (pySet d k v) k = true := by
  induction d with
  | nil => simp [pySet, pyHas]
  | cons hd tl ih =>
      obtain ⟨k₀, v₀⟩ := hd
      by_cases h0 : k₀ = k <;> simp [pySet, pyHas, h0, ih]

theorem pyHas_pySet_ne (d : PyDict) (k k' : String) (v : PyVal) (h : k ≠ k') :
    pyHas (pySet d k v) k' = pyHas d k' := by
  induction d with
  | nil => simp [pySet, pyHas, h]
  | cons hd tl ih =>
      obtain ⟨k₀, v₀⟩ := hd
      by_cases h0 : k₀ = k
      · subst h0
        simp [pySet, pyHas, ih]
      · simp [pySet, pyHas, h0, ih]

theorem pyGet_eq_none_of_not_mem (d : PyDict) (k : String)
    (h : k ∉ d.map Prod.fst) : pyGet d k = Option.none := by
  induction d with
  | nil => simp [pyGet]
  | cons hd tl ih =>
      obtain ⟨k₀, v₀⟩ := hd
      simp only [List.map_cons, List.mem_cons] at h
      push_neg at h
      simp [pyGet, Ne.symm h.1, ih h.2]

/-- Effect of the first merge loop at one key: `items` carries each key at
most once, so the loop rewrites key `k` exactly when `items` binds `k` to an
empty-or-redacted value and `secrets` knows `k`. -/
theorem mergePass1_get (items : List (String × PyVal)) (out secrets : PyDict) (k : String)
    (hnd : (items.map Prod.fst).Nodup) :
    pyGet (mergePass1 out items secrets) k =
      match pyGet items k with
      | some v =>
          if needsSecret v && pyHas secrets k
          then some (pyGetD secrets k .none)
          else pyGet out k
      | Option.none => pyGet out k := by
  induction items generalizing out with
  | nil => simp [mergePass1, pyGet]
  | cons hd tl ih =>
      obtain ⟨k₀, v₀⟩ := hd
      simp only [List.map_cons, List.nodup_cons] at hnd
      have hstep : mergePass1 out ((k₀, v₀) :: tl) secrets =
          mergePass1
            (if needsSecret v₀ && pyHas secrets k₀
             then pySet out k₀ (pyGetD secrets k₀ .none) else out) tl secrets := rfl
      rw [hstep]
      by_cases h0 : k₀ = k
      · subst h0
        have htl : pyGet tl k₀ = Option.none :=
          pyGet_eq_none_of_not_mem tl k₀ hnd.1
        by_cases hc : needsSecret v₀ && pyHas secrets k₀
        · rw [if_pos hc, ih _ hnd.2]
          simp [pyGet, htl, pyGet_pySet_self, hc]
        · rw [if_neg hc, ih _ hnd.2]
          simp [pyGet, htl, hc]
      · have hhd : pyGet ((k₀, v₀) :: tl) k = pyGet tl k := by simp [pyGet, h0]
        rw [hhd]
        by_cases hc : needsSecret v₀ && pyHas secrets k₀
        · rw [if_pos hc, ih _ hnd.2]
          rcases hv : pyGet tl k with _ | v
          · simp [pyGet_pySet_ne _ _ _ _ h0]
          · by_cases hc2 : needsSecret v && pyHas secrets k <;>
              simp [hc2, pyGet_pySet_ne _ _ _ _ h0]
        · rw [if_neg hc]
          exact ih _ hnd.2

/-- Effect of the second merge loop at one key: with the secret keys
pairwise distinct, key `k` is overwritten exactly when `secrets` binds it
and it is absent or empty in `out`. -/
theorem mergePass2_get (items : List (String × PyVal)) (out : PyDict) (k : String)
    (hnd : (items.map Prod.fst).Nodup) :
    pyGet (mergePass2 out items) k =
      match pyGet items k with
      | some v =>
          if !pyHas out k || pyIsNoneOrEmpty (pyGetD out k .none)
          then some v
          else pyGet out k
      | Option.none => pyGet out k := by
  induction items generalizing out with
  | nil => simp [mergePass2, pyGet]
  | cons hd tl ih =>
      obtain ⟨k₀, v₀⟩ := hd
      simp only [List.map_cons, List.nodup_cons] at hnd
      have hstep : mergePass2 out ((k₀, v₀) :: tl) =
          mergePass2
            (if !pyHas out k₀ || pyIsNoneOrEmpty (pyGetD out k₀ .none)
             then pySet out k₀ v₀ else out) tl := rfl
      rw [hstep]
      by_cases h0 : k₀ = k
      · subst h0
        have htl : pyGet tl k₀ = Option.none :=
          pyGet_eq_none_of_not_mem tl k₀ hnd.1
        by_cases hc : !pyHas out k₀ || pyIsNoneOrEmpty (pyGetD out k₀ .none)
        · rw [if_pos hc, ih _ hnd.2]
          simp [pyGet, htl, hc, pyGet_pySet_self]
        · rw [if_neg hc, ih _ hnd.2]
          simp [pyGet, htl, hc]
      · have hhd : pyGet ((k₀, v₀) :: tl) k = pyGet tl k := by simp [pyGet, h0]
        rw [hhd]
        by_cases hc : !pyHas out k₀ || pyIsNoneOrEmpty (pyGetD out k₀ .none)
        · rw [if_pos hc, ih _ hnd.2]
          have hhas : pyHas (pySet out k₀ v₀) k = pyHas out k :=
            pyHas_pySet_ne _ _ _ _ h0
          have hget : pyGet (pySet out k₀ v₀) k = pyGet out k :=
            pyGet_pySet_ne _ _ _ _ h0
          rcases hv : pyGet tl k with _ | v
          · simp [hget]
          · simp [pyGetD, hhas, hget]
        · rw [if_neg hc]
          exact ih _ hnd.2

theorem pyHas_eq_isSome (d : PyDict) (k : String) :
    pyHas d k = (pyGet d k).isSome := by
  induction d with
  | nil => simp [pyHas, pyGet]
  | cons hd tl ih =>
      obtain ⟨k₀, v₀⟩ := hd
      by_cases h0 : k₀ = k <;> simp [pyHas, pyGet, h0, ih]

theorem not_isNoneOrEmpty_of_not_needsSecret (v : PyVal) (h : needsSecret v = false) :
    pyIsNoneOrEmpty v = false := by
  cases v <;> simp_all [needsSecret, pyIsNoneOrEmpty]

/-- C4. The secret merge substitutes the local secret exactly when the
exported value is empty (`None`/`""`) or a redaction sentinel, keeps every
genuine exported value, and adds secret-only keys; in particular the two
examples of the specification follow by instantiation (see the witness). -/
theorem merge_email_config_spec (src secrets : PyDict) (k : String)
    (hs : (src.map Prod.fst).Nodup) (ht : (secrets.map Prod.fst).Nodup) :
    pyGet (merge_email_config src secrets) k =
      match pyGet src k, pyGet secrets k with
      | some v, some w => if needsSecret v then some w else some v
      | some v, Option.none => some v
      | Option.none, sw => sw := by
  unfold merge_email_config
  rw [mergePass2_get _ _ _ ht]
  have hP := mergePass1_get src src secrets k hs
  rcases hsrc : pyGet src k with _ | v <;> rcases hsec : pyGet secrets k with _ | w <;>
    rw [hsrc] at hP
  · simp [hsec, hP]
  · have hPn : pyGet (mergePass1 src src secrets) k = Option.none := by
      rw [hP]
    simp [hsec, pyHas_eq_isSome, hPn]
  · have hss : pyHas secrets k = false := by rw [pyHas_eq_isSome, hsec]; rfl
    have hPv : pyGet (mergePass1 src src secrets) k = some v := by
      rw [hP]
      simp [hss]
    simp [hsec, hPv]
  · have hss : pyHas secrets k = true := by rw [pyHas_eq_isSome, hsec]; rfl
    have hw : pyGetD secrets k .none = w := by simp [pyGetD, hsec]
    by_cases hn : needsSecret v
    · have hPw : pyGet (mergePass1 src src secrets) k = some w := by
        rw [hP]
        simp [hss, hn, hw]
      have hPhas : pyHas (mergePass1 src src secrets) k = true := by
        rw [pyHas_eq_isSome, hPw]; rfl
      by_cases he : pyIsNoneOrEmpty w <;>
        simp [hsec, hn, hPw, hPhas, pyGetD, he]
    · have hPv : pyGet (mergePass1 src src secrets) k = some v := by
        rw [hP]
        simp [hn]
      have hPhas : pyHas (mergePass1 src src secrets) k = true := by
        rw [pyHas_eq_isSome, hPv]; rfl
      have hne := not_isNoneOrEmpty_of_not_needsSecret v (by simpa using hn)
      simp [hsec, hn, hPv, hPhas, pyGetD, hne]

/-- Witness for C4: the two concrete examples from the specification,
by instantiating the merge theorem. -/
theorem merge_email_config_spec_witness :
    pyGet (merge_email_config [("password", PyVal.str "********")]
        [("password", PyVal.str "p@ss")]) "password" = some (PyVal.str "p@ss") ∧
    pyGet (merge_email_config [("password", PyVal.str "real")]
        [("password", PyVal.str "other")]) "password" = some (PyVal.str "real") := by
  constructor
  · rw [merge_email_config_spec _ _ _ (by decide) (by decide)]
    rfl
  · rw [merge_email_config_spec _ _ _ (by decide) (by decide)]
    rfl

/-- Python `str(v)` for the values the scripts put into payloads
(strings, ints, bools, `None`; nested objects do not reach `str`). -/
def PyVal.pyStr : PyVal → String
  | .none => "None"
  | .str s => s
  | .int n => toString n
  | .bool b => if b then "True" else "False"
  | .obj _ => "<dict>"

/-- Python `int(v)`, raising on non-numeric input as `int()` does. -/
def pyIntOf : PyVal → Except String Int
  | .int n => .ok n
  | .bool b => .ok (if b then 1 else 0)
  | .str s =>
      let t := pyStripList s.data
      let (sign, ds) :=
        match t with
        | '-' :: rest => ((-1 : Int), rest)
        | '+' :: rest => ((1 : Int), rest)
        | rest => ((1 : Int), rest)
      if ds ≠ [] ∧ ds.all Char.isDigit then
        .ok (sign * (Int.ofNat (ds.foldl (fun a c => a * 10 + (c.toNat - 48)) 0)))
      else .error ("invalid literal for int(): " ++ s)
  | .none => .error "int() argument is None"
  | .obj _ => .error "int() argument is a dict"

/-- Python `isinstance(v, str)` conversion used where the code calls string
methods on a value; non-strings raise `TypeError` there. -/
def pyAsStr : PyVal → Except String String
  | .str s => .ok s
  | _ => .error "TypeError: expected str"

/-- Wrap an `Option Int` reference id as the payload value (`None` or int). -/
def optInt : Option Int → PyVal
  | some n => .int n
  | Option.none => .none

/-- Embedding of `jt_payload_from_awx(obj, org, proj_id, inv_id, ee_id)`.
The function body is a single `return` of this dict; the two statements
after the `return` (`if survey_spec: ...`) are unreachable dead code and
also reference names that are not in scope, so they contribute nothing. -/
def jt_payload_from_awx (obj : PyDict) (org : Int)
    (proj_id inv_id ee_id : Option Int) : PyDict :=
  [("name", pyGetD obj "name" (.str "Migrated JT")),
   ("description", pyOr (pyGetD obj "description" (.str "")) (.str "")),
   ("job_type", pyGetD obj "job_type" (.str "run")),
   ("playbook", pyOr (pyGetD obj "playbook" .none) (.str "")),
   ("project", optInt proj_id),
   ("inventory", optInt inv_id),
   ("execution_environment", optInt ee_id),
   ("forks", pyOr (pyGetD obj "forks" (.int 0)) (.int 0)),
   ("verbosity", pyOr (pyGetD obj "verbosity" (.int 0)) (.int 0)),
   ("become_enabled", .bool (pyGetD obj "become_enabled" (.bool false)).truthy),
   ("limit", pyOr (pyGetD obj "limit" .none) (.str "")),
   ("timeout", pyOr (pyGetD obj "timeout" (.int 0)) (.int 0)),
   ("organization", .int org),
   ("allow_simultaneous", .bool (pyGetD obj "allow_simultaneous" (.bool false)).truthy),
   ("use_fact_cache", .bool (pyGetD obj "use_fact_cache" (.bool false)).truthy),
   ("ask_inventory_on_launch", .bool (pyGetD obj "ask_inventory_on_launch" (.bool false)).truthy),
   ("ask_variables_on_launch", .bool (pyGetD obj "ask_variables_on_launch" (.bool false)).truthy),
   ("ask_limit_on_launch", .bool (pyGetD obj "ask_limit_on_launch" (.bool false)).truthy),
   ("ask_scm_branch_on_launch", .bool (pyGetD obj "ask_scm_branch_on_launch" (.bool false)).truthy),
   ("ask_execution_environment_on_launch", .bool (pyGetD obj "ask_execution_environment_on_launch" (.bool false)).truthy),
   ("ask_credential_on_launch", .bool (pyGetD obj "ask_credential_on_launch" (.bool false)).truthy),
   ("survey_enabled", .bool (pyGetD obj "survey_enabled" (.bool false)).truthy),
   ("extra_vars", pyOr (pyGetD obj "extra_vars" (.str "")) (.str ""))]

/-- C10. The job-template creation payload never carries a `survey_spec`
key, and its `survey_enabled` entry is the boolean of the source object's
`survey_enabled` field: the statements after the `return` in
`jt_payload_from_awx` are unreachable. -/
theorem jt_payload_no_survey_spec (obj : PyDict) (org : Int)
    (proj_id inv_id ee_id : Option Int) :
    pyGet (jt_payload_from_awx obj org proj_id inv_id ee_id) "survey_spec" = Option.none ∧
    pyGet (jt_payload_from_awx obj org proj_id inv_id ee_id) "survey_enabled" =
      some (.bool (pyGetD obj "survey_enabled" (.bool false)).truthy) := by
  constructor <;> rfl

/-! Model of the `datetime` arithmetic used by the schedule synthesizer.
Dates are proleptic-Gregorian; the day/civil conversions follow the
standard era-based algorithm. -/

/-- Days since 1970-01-01 of a civil date. -/
def daysFromCivil (y m d : Int) : Int :=
  let y' := if m ≤ 2 then y - 1 else y
  let era := y' / 400
  let yoe := y' - era * 400
  let mp := (m + 9) % 12
  let doy := (153 * mp + 2) / 5 + d - 1
  let doe := yoe * 365 + yoe / 4 - yoe / 100 + doy
  era * 146097 + doe - 719468

/-- Civil date of a count of days since 1970-01-01. -/
def civilFromDays (z0 : Int) : Int × Int × Int :=
  let z := z0 + 719468
  let era := z / 146097
  let doe := z - era * 146097
  let yoe := (doe - doe / 1460 + doe / 36524 - doe / 146096) / 365
  let y := yoe + era * 400
  let doy := doe - (365 * yoe + yoe / 4 - yoe / 100)
  let mp := (5 * doy + 2) / 153
  let d := doy - (153 * mp + 2) / 5 + 1
  let m := if mp < 10 then mp + 3 else mp - 9
  (if m ≤ 2 then y + 1 else y, m, d)

/-- A `datetime.datetime`: civil fields plus an optional UTC offset in
minutes (`none` models a naive datetime). -/
structure PyDateTime where
  year : Int
  month : Int
  day : Int
  hour : Int
  minute : Int
  second : Int
  tzOffsetMinutes : Option Int

/-- Python `d.astimezone(tz)` for a fixed-offset target zone. A naive
datetime is interpreted with the process-local zone in Python; the scripts
only reach this call with offset-aware datetimes, and the model uses UTC
for the naive case. -/
def astimezoneOffset (d : PyDateTime) (newOffset : Int) : PyDateTime :=
  let off := d.tzOffsetMinutes.getD 0
  let totalUtc := daysFromCivil d.year d.month d.day * 1440 + d.hour * 60 + d.minute - off
  let totalNew := totalUtc + newOffset
  let days := totalNew / 1440
  let rem := totalNew - days * 1440
  let c := civilFromDays days
  ⟨c.1, c.2.1, c.2.2, rem / 60, rem % 60, d.second, some newOffset⟩

/-- Two-digit parse. -/
def twoDigits (a b : Char) : Option Int :=
  if a.isDigit && b.isDigit
  then some ((Int.ofNat a.toNat - 48) * 10 + (Int.ofNat b.toNat - 48))
  else Option.none

/-- Model of `datetime.fromisoformat` for the profile the scripts feed it:
`YYYY-MM-DD<sep>HH:MM:SS` with an optional `+HH:MM`/`-HH:MM` offset.
Other ISO variants accepted by CPython do not occur in these scripts;
inputs outside the profile parse as a failure. -/
def fromisoformat (s : String) : Option PyDateTime :=
  match s.data with
  | y1 :: y2 :: y3 :: y4 :: '-' :: m1 :: m2 :: '-' :: d1 :: d2 :: _ ::
      h1 :: h2 :: ':' :: n1 :: n2 :: ':' :: s1 :: s2 :: rest =>
      match twoDigits y1 y2, twoDigits y3 y4, twoDigits m1 m2, twoDigits d1 d2,
            twoDigits h1 h2, twoDigits n1 n2, twoDigits s1 s2 with
      | some yh, some yl, some mo, some dd, some hh, some mi, some ss =>
          if 1 ≤ mo ∧ mo ≤ 12 ∧ 1 ≤ dd ∧ dd ≤ 31 ∧ hh ≤ 23 ∧ mi ≤ 59 ∧ ss ≤ 59 then
            let base : Option Int → Option PyDateTime := fun off =>
              some ⟨yh * 100 + yl, mo, dd, hh, mi, ss, off⟩
            match rest with
            | [] => base Option.none
            | sgn :: o1 :: o2 :: ':' :: o3 :: o4 :: [] =>
                match twoDigits o1 o2, twoDigits o3 o4 with
                | some oh, some om =>
                    if (sgn = '+' ∨ sgn = '-') ∧ oh ≤ 23 ∧ om ≤ 59 then
                      base (some ((if sgn = '-' then -1 else 1) * (oh * 60 + om)))
                    else Option.none
                | _, _ => Option.none
            | _ => Option.none
          else Option.none
      | _, _, _, _, _, _, _ => Option.none
  | _ => Option.none

/-- Python `str.replace(pat, rep)` (all occurrences, left to right),
fuel-driven over the character list. -/
def pyReplaceAux (pat rep : List Char) : Nat → List Char → List Char
  | 0, cs => cs
  | _ + 1, [] => []
  | fuel + 1, c :: rest =>
      if pat ≠ [] ∧ pat.isPrefixOf (c :: rest)
      then rep ++ pyReplaceAux pat rep fuel ((c :: rest).drop pat.length)
      else c :: pyReplaceAux pat rep fuel rest

/-- Python `s.replace(pat, rep)`. -/
def pyReplace (s pat rep : String) : String :=
  String.mk (pyReplaceAux pat.data rep.data s.data.length s.data)

/-- Python `s.endswith(p)`. -/
def pyEndsWith (s p : String) : Bool :=
  p.data.isSuffixOf s.data

/-- Embedding of `_parse_iso(dt)`: on a trailing `Z`, replace every `Z` by
`+00:00` first; any parse error is swallowed to `None`. Non-string input
raises inside the `try` and is likewise swallowed. -/
def parse_iso (dt : PyVal) : Option PyDateTime :=
  match dt with
  | .str s =>
      if pyEndsWith s "Z" then fromisoformat (pyReplace s "Z" "+00:00")
      else fromisoformat s
  | _ => Option.none

/-- The decimal digit character of `n mod 10` (fields are in range by
construction). -/
def digitChar (n : Int) : Char :=
  Char.ofNat (48 + n.toNat % 10)

/-- Zero-padded decimal rendering of width 2 (`%m`, `%d`, `%H`, `%M`, `%S`). -/
def pad2 (n : Int) : String :=
  String.mk [digitChar (n / 10), digitChar n]

/-- Zero-padded decimal rendering of width 4 (`%Y`; the scripts handle
four-digit years). -/
def pad4 (n : Int) : String :=
  String.mk [digitChar (n / 1000), digitChar (n / 100), digitChar (n / 10), digitChar n]

/-- `strftime('%Y%m%dT%H%M%S')`. -/
def strftimeBasic (d : PyDateTime) : String :=
  pad4 d.year ++ pad2 d.month ++ pad2 d.day ++ "T" ++
    pad2 d.hour ++ pad2 d.minute ++ pad2 d.second

/-- `strftime('%Y%m%dT%H%M%SZ')`. -/
def strftimeBasicZ (d : PyDateTime) : String :=
  strftimeBasic d ++ "Z"

/-- Embedding of `_format_dtstart(next_run_iso, tz)`. The `zoneinfo`
database is abstracted as `tzdb : String → Option Int` giving the fixed
UTC offset in minutes of a resolvable zone name; an unresolvable name (or
a non-string zone) raises inside the `try` and falls back to the UTC-zulu
form, exactly as the `except: pass` does. -/
def format_dtstart (tzdb : String → Option Int) (next_run_iso tz : PyVal) :
    Option String :=
  if !next_run_iso.truthy then Option.none
  else
    match parse_iso next_run_iso with
    | Option.none => Option.none
    | some d =>
        let utcLine := "DTSTART:" ++ strftimeBasicZ (astimezoneOffset d 0)
        if tz.truthy then
          match tz with
          | .str t =>
              match tzdb t with
              | some off =>
                  some ("DTSTART;TZID=" ++ t ++ ":" ++
                        strftimeBasic (astimezoneOffset d off))
              | Option.none => some utcLine
          | _ => some utcLine
        else some utcLine

/-- ASCII `str.upper()`. -/
def pyUpper (s : String) : String :=
  String.mk (s.data.map Char.toUpper)

/-- Case-insensitive character equality (ASCII, as the patterns are). -/
def ciEq (a b : Char) : Bool :=
  a.toLower = b.toLower

/-- Case-insensitive prefix test on character lists. -/
def ciIsPrefixOf : List Char → List Char → Bool
  | [], _ => true
  | _ :: _, [] => false
  | p :: ps, c :: cs => ciEq p c && ciIsPrefixOf ps cs

/-- The segments of a character list around `\n` (the positions where the
multiline `^` of the rule patterns can match). -/
def linesOf : List Char → List (List Char)
  | [] => [[]]
  | '\n' :: rest => [] :: linesOf rest
  | c :: rest =>
      match linesOf rest with
      | l :: ls => (c :: l) :: ls
      | [] => [[c]]

/-- One line matches the multiline pattern `^DTSTART(?:;TZID=[^:]+)?:`
(case-insensitive). -/
def dtstartLineMatch (line : List Char) : Bool :=
  let u := line.map Char.toUpper
  if "DTSTART:".data.isPrefixOf u then true
  else if "DTSTART;TZID=".data.isPrefixOf u then
    let rest := u.drop 13
    decide (1 ≤ (rest.takeWhile (fun c => c ≠ ':')).length) &&
      rest.any (fun c => c = ':')
  else false

/-- `RRULE_DT_RE.search(r)`: some line of `r` starts a `DTSTART` anchor. -/
def hasDtstartLine (r : String) : Bool :=
  (linesOf r.data).any dtstartLineMatch

/-- `RRULE_RULE_RE.search(r)`: some line of `r` starts with `RRULE:`. -/
def hasRruleLine (r : String) : Bool :=
  (linesOf r.data).any (fun line => "RRULE:".data.isPrefixOf (line.map Char.toUpper))

/-- The whitespace class of `re` patterns (ASCII `\s`). -/
def isReSpace (c : Char) : Bool :=
  c = ' ' || c = '\t' || c = '\n' || c = '\x0d' || c = '\x0b' || c = '\x0c'

/-- For the regex `(DTSTART[^\n]+)\s+(RRULE:)`: largest count `j ≥ 1` of
leading whitespace after which `RRULE:` starts (the greedy `\s+`). -/
def findWsRruleFrom : Nat → List Char → Option Nat
  | 0, _ => Option.none
  | j + 1, after =>
      if ciIsPrefixOf "RRULE:".data (after.drop (j + 1)) then some (j + 1)
      else findWsRruleFrom j after

/-- Greedy search for the first-group length `k` (longest `[^\n]+` that
still leaves a whitespace run followed by `RRULE:`). -/
def findG1 : Nat → List Char → Option (Nat × Nat)
  | 0, _ => Option.none
  | k + 1, rest =>
      match findWsRruleFrom ((rest.drop (k + 1)).takeWhile isReSpace).length
              (rest.drop (k + 1)) with
      | some j => some (k + 1, j)
      | Option.none => findG1 k rest

/-- Length of a match of `(DTSTART[^\n]+)\s+(RRULE:)` starting at the head
of `cs`, if any. -/
def dtMatchLen (cs : List Char) : Option Nat :=
  if ciIsPrefixOf "DTSTART".data cs then
    let rest := cs.drop 7
    match findG1 (rest.takeWhile (fun c => c ≠ '\n')).length rest with
    | some kj => some (7 + kj.1 + kj.2 + 6)
    | Option.none => Option.none
  else Option.none

/-- The `re.sub` scan: replace every non-overlapping leftmost match with
the replacement text.  The replacement template `r"\\1\n\\2"` denotes the
literal five characters backslash, `1`, newline, backslash, `2` (the
backreferences are escaped), so a matched block is destroyed, not
rearranged — dormant here because the scripts' inputs keep `DTSTART` and
`RRULE:` on separate lines. -/
def subScan : Nat → List Char → List Char
  | 0, cs => cs
  | fuel + 1, cs =>
      match cs with
      | [] => []
      | c :: rest =>
          match dtMatchLen cs with
          | some len => '\\' :: '1' :: '\n' :: '\\' :: '2' :: subScan fuel (cs.drop len)
          | Option.none => c :: subScan fuel rest

/-- Embedding of the `re.sub(r"(DTSTART[^\n]+)\s+(RRULE:)", r"\\1\n\\2", r)`
call of `normalize_rrule`. -/
def subDtstartRrule (s : String) : String :=
  String.mk (subScan s.data.length s.data)

/-- Embedding of `normalize_rrule(raw_rrule, next_run, timezone_str)`.
Returns the repaired rule and the unchanged timezone value; raises
(`Except.error`) only when the rule value is not a string, as
`.strip()` would. -/
def normalize_rrule (tzdb : String → Option Int) (raw next_run tzv : PyVal) :
    Except String (String × PyVal) := do
  let r0 ← pyAsStr (pyOr raw (.str ""))
  let r1 := pyStrip r0
  if r1 = "" then return (r1, tzv)
  let r2 := subDtstartRrule r1
  let hasDt := hasDtstartLine r2
  let hasRr := hasRruleLine r2
  let dtLine : Option String :=
    if !hasDt then format_dtstart tzdb next_run tzv else Option.none
  match dtLine with
  | some dl =>
      if dl ≠ "" then
        if hasRr then
          if "RRULE:".data.isPrefixOf (pyUpper r2).data then return (dl ++ "\n" ++ r2, tzv)
          else if !"DTSTART".data.isPrefixOf (pyUpper r2).data then return (dl ++ "\n" ++ r2, tzv)
          else return (r2, tzv)
        else return (dl ++ "\n" ++ r2, tzv)
      else return (r2, tzv)
  | Option.none => return (r2, tzv)

/-- C5. For the rule `RRULE:FREQ=DAILY` with next run
`2025-10-16T14:00:00Z` and no timezone, the synthesizer prepends a
`DTSTART` anchor in UTC-zulu form (`20251016T140000Z`), so the anchor line
precedes the `RRULE:` line, for any state of the timezone database. -/
theorem normalize_rrule_daily_utc (tzdb : String → Option Int) :
    normalize_rrule tzdb (.str "RRULE:FREQ=DAILY")
        (.str "2025-10-16T14:00:00Z") .none =
      .ok ("DTSTART:20251016T140000Z\nRRULE:FREQ=DAILY", PyVal.none) ∧
    linesOf ("DTSTART:20251016T140000Z\nRRULE:FREQ=DAILY").data =
      ["DTSTART:20251016T140000Z".data, "RRULE:FREQ=DAILY".data] := by
  constructor <;> rfl

/-- Python `v is None`. -/
def PyVal.isNone : PyVal → Bool
  | .none => true
  | _ => false

/-- Conditionally add an optional payload entry guarded by truthiness
(the `if s.get(k): p[k] = s[k]` lines of the payload builders). -/
def addIfTruthy (p : PyDict) (k : String) (v : PyVal) : PyDict :=
  if v.truthy then pySet p k v else p

/-- Embedding of `schedule_payload_minimal(s, jt_id, jt_inventory_id, aap_host)`
(the "full" variant payload). `Except.error` models the uncaught
`ValueError` that `int(...)` raises on a malformed numeric field. -/
def schedule_payload_minimal (tzdb : String → Option Int) (s : PyDict)
    (jt_id : Int) (jt_inventory_id : Option Int) (aap_host : String) :
    Except String PyDict := do
  let fr ← normalize_rrule tzdb (pyGetD s "rrule" (.str ""))
      (pyOr (pyGetD s "next_run" .none) (pyGetD s "next_run_original" .none))
      (pyGetD s "timezone" .none)
  let p : PyDict :=
    [("name", pyGetD s "name" (.str "")),
     ("enabled", .bool (pyGetD s "enabled" (.bool true)).truthy),
     ("unified_job_template", .int jt_id),
     ("rrule", .str fr.1)]
  let p := if fr.2.truthy then pySet p "timezone" fr.2 else p
  let p := match jt_inventory_id with
           | some i => pySet p "inventory" (.int i)
           | Option.none => p
  let p := addIfTruthy p "extra_data" (pyGetD s "extra_data" .none)
  let p := addIfTruthy p "scm_branch" (pyGetD s "scm_branch" .none)
  let p := addIfTruthy p "limit" (pyGetD s "limit" .none)
  let p := addIfTruthy p "job_tags" (pyGetD s "job_tags" .none)
  let p := addIfTruthy p "skip_tags" (pyGetD s "skip_tags" .none)
  let p ← if !(pyGetD s "verbosity" .none).isNone then do
            let n ← pyIntOf (pyOr (pyGetD s "verbosity" .none) (.int 0))
            pure (pySet p "verbosity" (.int n))
          else pure p
  let p ← if !(pyGetD s "forks" .none).isNone then do
            let n ← pyIntOf (pyOr (pyGetD s "forks" .none) (.int 0))
            pure (pySet p "forks" (.int n))
          else pure p
  let p ← if !(pyGetD s "timeout" .none).isNone then do
            let n ← pyIntOf (pyOr (pyGetD s "timeout" .none) (.int 0))
            pure (pySet p "timeout" (.int n))
          else pure p
  let p := addIfTruthy p "execution_environment" (pyGetD s "execution_environment" .none)
  pure p

/-- Embedding of `schedule_payload_bareminimum(s, jt_id, jt_inventory_id,
aap_host)` (the "minimal required fields" variant payload). -/
def schedule_payload_bareminimum (tzdb : String → Option Int) (s : PyDict)
    (jt_id : Int) (jt_inventory_id : Option Int) (aap_host : String) :
    Except String PyDict := do
  let fr ← normalize_rrule tzdb (pyGetD s "rrule" (.str ""))
      (pyOr (pyGetD s "next_run" .none) (pyGetD s "next_run_original" .none))
      (pyGetD s "timezone" .none)
  let p : PyDict :=
    [("name", pyGetD s "name" (.str "")),
     ("enabled", .bool (pyGetD s "enabled" (.bool true)).truthy),
     ("unified_job_template", .int jt_id),
     ("rrule", .str fr.1)]
  let p := if fr.2.truthy then pySet p "timezone" fr.2 else p
  let p := match jt_inventory_id with
           | some i => pySet p "inventory" (.int i)
           | Option.none => p
  let p := addIfTruthy p "limit" (pyGetD s "limit" .none)
  pure p

/-- The `with_ujt_url` closure of `try_create_schedule`: copy the payload
and point `unified_job_template` at the job template's URL. -/
def with_ujt_url (aap_host : String) (jt_id : Int) (payload : PyDict) : PyDict :=
  pySet payload "unified_job_template"
    (.str (aap_host ++ "/api/controller/v2/job_templates/" ++ toString jt_id ++ "/"))

/-- The NDJSON events emitted by `try_create_schedule` (`schedule.create.ok`
and `schedule.create.fail`). -/
inductive SchedEvent where
  | ok (attempt : Nat) (variant : String) (name : PyVal) (ujt : String)
  | fail (attempt : Nat) (variant : String) (diag : PyDict) (error : String)

/-- The compact payload diagnostics of a failing attempt:
`{k: pl.get(k) for k in ("name","unified_job_template","timezone","rrule","inventory","limit")}`. -/
def schedDiag (pl : PyDict) : PyDict :=
  [("name", pyGetD pl "name" .none),
   ("unified_job_template", pyGetD pl "unified_job_template" .none),
   ("timezone", pyGetD pl "timezone" .none),
   ("rrule", pyGetD pl "rrule" .none),
   ("inventory", pyGetD pl "inventory" .none),
   ("limit", pyGetD pl "limit" .none)]

/-- The ordered variant list of `try_create_schedule`. -/
def scheduleVariants (tzdb : String → Option Int) (s : PyDict) (jt_id : Int)
    (jt_inventory_id : Option Int) (aap_host : String) :
    Except String (List (String × PyDict)) := do
  let full ← schedule_payload_minimal tzdb s jt_id jt_inventory_id aap_host
  let bare ← schedule_payload_bareminimum tzdb s jt_id jt_inventory_id aap_host
  pure [("full-id", full),
        ("full-url", with_ujt_url aap_host jt_id full),
        ("bare-id", bare),
        ("bare-url", with_ujt_url aap_host jt_id bare)]

/-- The attempt loop of `try_create_schedule`. The target's response to
attempt number `i` with payload `pl` is `post i pl`: `none` is a 2xx
acceptance, `some err` the raised error text. -/
def tryLoop (post : Nat → PyDict → Option String) :
    Nat → List (String × PyDict) → Bool × List SchedEvent
  | _, [] => (false, [])
  | idx, (label, pl) :: rest =>
      match post idx pl with
      | Option.none =>
          (true, [.ok idx label (pyGetD pl "name" (.str ""))
                    (pyGetD pl "unified_job_template" .none).pyStr])
      | some err =>
          let r := tryLoop post (idx + 1) rest
          (r.1, .fail idx label (schedDiag pl) err :: r.2)

/-- Embedding of `try_create_schedule(...)`: build the four variants, then
try them in order, returning whether an attempt succeeded together with the
emitted event log. -/
def try_create_schedule (tzdb : String → Option Int)
    (post : Nat → PyDict → Option String) (aap_host : String) (jt_id : Int)
    (jt_inventory_id : Option Int) (s : PyDict) :
    Except String (Bool × List SchedEvent) := do
  let vs ← scheduleVariants tzdb s jt_id jt_inventory_id aap_host
  pure (tryLoop post 1 vs)

/-- C3. The submitter tries exactly the four payload variants in the fixed
order full-id, full-url, bare-id, bare-url; the first accepted attempt
terminates the sequence with success (the log holds the failures before it
and its own acceptance), and when all four are rejected it returns
exhausted with a diagnostic (label, payload subset, error) for every one
of the four attempts, in order. -/
theorem try_create_schedule_spec (tzdb : String → Option Int)
    (post : Nat → PyDict → Option String) (host : String) (jt : Int)
    (inv : Option Int) (s : PyDict) (pf pb : PyDict)
    (hf : schedule_payload_minimal tzdb s jt inv host = .ok pf)
    (hb : schedule_payload_bareminimum tzdb s jt inv host = .ok pb) :
    (scheduleVariants tzdb s jt inv host =
      .ok [("full-id", pf), ("full-url", with_ujt_url host jt pf),
           ("bare-id", pb), ("bare-url", with_ujt_url host jt pb)]) ∧
    (post 1 pf = Option.none →
      try_create_schedule tzdb post host jt inv s =
        .ok (true, [.ok 1 "full-id" (pyGetD pf "name" (.str ""))
                      (pyGetD pf "unified_job_template" .none).pyStr])) ∧
    (∀ e1, post 1 pf = some e1 →
      post 2 (with_ujt_url host jt pf) = Option.none →
      try_create_schedule tzdb post host jt inv s =
        .ok (true, [.fail 1 "full-id" (schedDiag pf) e1,
                    .ok 2 "full-url"
                      (pyGetD (with_ujt_url host jt pf) "name" (.str ""))
                      (pyGetD (with_ujt_url host jt pf) "unified_job_template" .none).pyStr])) ∧
    (∀ e1 e2, post 1 pf = some e1 →
      post 2 (with_ujt_url host jt pf) = some e2 →
      post 3 pb = Option.none →
      try_create_schedule tzdb post host jt inv s =
        .ok (true, [.fail 1 "full-id" (schedDiag pf) e1,
                    .fail 2 "full-url" (schedDiag (with_ujt_url host jt pf)) e2,
                    .ok 3 "bare-id" (pyGetD pb "name" (.str ""))
                      (pyGetD pb "unified_job_template" .none).pyStr])) ∧
    (∀ e1 e2 e3, post 1 pf = some e1 →
      post 2 (with_ujt_url host jt pf) = some e2 →
      post 3 pb = some e3 →
      post 4 (with_ujt_url host jt pb) = Option.none →
      try_create_schedule tzdb post host jt inv s =
        .ok (true, [.fail 1 "full-id" (schedDiag pf) e1,
                    .fail 2 "full-url" (schedDiag (with_ujt_url host jt pf)) e2,
                    .fail 3 "bare-id" (schedDiag pb) e3,
                    .ok 4 "bare-url"
                      (pyGetD (with_ujt_url host jt pb) "name" (.str ""))
                      (pyGetD (with_ujt_url host jt pb) "unified_job_template" .none).pyStr])) ∧
    (∀ e1 e2 e3 e4, post 1 pf = some e1 →
      post 2 (with_ujt_url host jt pf) = some e2 →
      post 3 pb = some e3 →
      post 4 (with_ujt_url host jt pb) = some e4 →
      try_create_schedule tzdb post host jt inv s =
        .ok (false, [.fail 1 "full-id" (schedDiag pf) e1,
                     .fail 2 "full-url" (schedDiag (with_ujt_url host jt pf)) e2,
                     .fail 3 "bare-id" (schedDiag pb) e3,
                     .fail 4 "bare-url" (schedDiag (with_ujt_url host jt pb)) e4])) := by
  have hv : scheduleVariants tzdb s jt inv host =
      .ok [("full-id", pf), ("full-url", with_ujt_url host jt pf),
           ("bare-id", pb), ("bare-url", with_ujt_url host jt pb)] := by
    simp [scheduleVariants, hf, hb, bind, Except.bind, pure, Except.pure]
  refine ⟨hv, ?_, ?_, ?_, ?_, ?_⟩
  · intro h1
    simp [try_create_schedule, hv, bind, Except.bind, pure, Except.pure, tryLoop, h1]
  · intro e1 h1 h2
    simp [try_create_schedule, hv, bind, Except.bind, pure, Except.pure, tryLoop, h1, h2]
  · intro e1 e2 h1 h2 h3
    simp [try_create_schedule, hv, bind, Except.bind, pure, Except.pure, tryLoop, h1, h2, h3]
  · intro e1 e2 e3 h1 h2 h3 h4
    simp [try_create_schedule, hv, bind, Except.bind, pure, Except.pure, tryLoop, h1, h2, h3, h4]
  · intro e1 e2 e3 e4 h1 h2 h3 h4
    simp [try_create_schedule, hv, bind, Except.bind, pure, Except.pure, tryLoop, h1, h2, h3, h4]

/-- The full-variant payload of the C3 witness candidate (equal to its
bare-minimum payload, since the candidate has no optional overrides). -/
def witnessSchedPayload : PyDict :=
  [("name", .str "Nightly"),
   ("enabled", .bool true),
   ("unified_job_template", .int 7),
   ("rrule", .str "DTSTART:20251016T140000Z\nRRULE:FREQ=DAILY"),
   ("inventory", .int 3)]

/-- Witness for C3: a target that rejects variants 1–3 and accepts
variant 4 yields success with exactly four attempts logged in order, on a
concrete schedule candidate, by instantiating the submitter theorem. -/
theorem try_create_schedule_spec_witness :
    try_create_schedule (fun _ => Option.none)
        (fun i _ => if i = 4 then Option.none else some "400 Bad Request")
        "https://aap" 7 (some 3)
        [("name", .str "Nightly"), ("rrule", .str "RRULE:FREQ=DAILY"),
         ("next_run", .str "2025-10-16T14:00:00Z")] =
      .ok (true,
        [.fail 1 "full-id" (schedDiag witnessSchedPayload) "400 Bad Request",
         .fail 2 "full-url"
           (schedDiag (with_ujt_url "https://aap" 7 witnessSchedPayload)) "400 Bad Request",
         .fail 3 "bare-id" (schedDiag witnessSchedPayload) "400 Bad Request",
         .ok 4 "bare-url"
           (pyGetD (with_ujt_url "https://aap" 7 witnessSchedPayload) "name" (.str ""))
           (pyGetD (with_ujt_url "https://aap" 7 witnessSchedPayload)
             "unified_job_template" .none).pyStr]) := by
  exact (try_create_schedule_spec (fun _ => Option.none)
      (fun i _ => if i = 4 then Option.none else some "400 Bad Request")
      "https://aap" 7 (some 3)
      [("name", .str "Nightly"), ("rrule", .str "RRULE:FREQ=DAILY"),
       ("next_run", .str "2025-10-16T14:00:00Z")]
      witnessSchedPayload witnessSchedPayload (by rfl) (by rfl)).2.2.2.2.1
    "400 Bad Request" "400 Bad Request" "400 Bad Request" rfl rfl rfl rfl

/-! Model of the slice of `urllib.parse` (CPython 3.11) that
`_normalize_git_url` exercises: `urlparse`, the `hostname`/`port`
properties, and `urlunparse`.  Strings are handled as character lists.
The `_checknetloc` NFKC check only concerns non-ASCII network locations
and is modelled as accepting; every property proved below stays in the
ASCII fragment. -/

/-- An ASCII letter (`url[0].isascii() and url[0].isalpha()`). -/
def isAsciiAlphaCh (c : Char) : Bool :=
  ('a' ≤ c && c ≤ 'z') || ('A' ≤ c && c ≤ 'Z')

/-- Membership in `scheme_chars`. -/
def isSchemeChar (c : Char) : Bool :=
  isAsciiAlphaCh c || c.isDigit || c = '+' || c = '-' || c = '.'

/-- The `uses_params` scheme list of `urllib.parse`. -/
def usesParams : List String :=
  ["", "ftp", "hdl", "prospero", "http", "imap", "https", "shttp", "rtsp",
   "rtspu", "sip", "sips", "mms", "sftp", "tel"]

/-- The `uses_netloc` scheme list of `urllib.parse`. -/
def usesNetloc : List String :=
  ["", "ftp", "http", "gopher", "nntp", "telnet", "imap", "wais", "file",
   "mms", "https", "shttp", "snews", "prospero", "rtsp", "rtspu", "rsync",
   "svn", "svn+ssh", "sftp", "nfs", "git", "git+ssh", "ws", "wss"]

/-- A character removed unconditionally by `urlsplit`
(`_UNSAFE_URL_BYTES_TO_REMOVE`). -/
def isUnsafeUrlByte (c : Char) : Bool :=
  c = '\t' || c = '\x0d' || c = '\n'

/-- The scheme split of `urlsplit`: at the first `:`, when everything
before it is a valid scheme starting with an ASCII letter, the scheme is
lower-cased and removed. -/
def splitScheme (cs : List Char) : List Char × List Char :=
  match cs.findIdx? (fun c => c = ':') with
  | some i =>
      if 0 < i then
        match cs with
        | c :: _ =>
            if isAsciiAlphaCh c && (cs.take i).all isSchemeChar
            then (pyLowerList (cs.take i), cs.drop (i + 1))
            else ([], cs)
        | [] => ([], cs)
      else ([], cs)
  | Option.none => ([], cs)

/-- A netloc delimiter (`_splitnetloc` stops at `/`, `?` or `#`). -/
def isNetlocDelim (c : Char) : Bool :=
  c = '/' || c = '?' || c = '#'

/-- Embedding of `urlsplit(url)` (fragments allowed, no default scheme):
`scheme, netloc, path, query, fragment`, or the `Invalid IPv6 URL` error on
unbalanced brackets. -/
def pyUrlsplit (cs0 : List Char) :
    Except String (List Char × List Char × List Char × List Char × List Char) := do
  let cs := cs0.filter (fun c => !isUnsafeUrlByte c)
  let (scheme, rest) := splitScheme cs
  let (netloc, rest) ←
    match rest with
    | '/' :: '/' :: after =>
        let nl := after.takeWhile (fun c => !isNetlocDelim c)
        if (nl.contains '[' && !nl.contains ']') ||
           (nl.contains ']' && !nl.contains '[') then
          Except.error "Invalid IPv6 URL"
        else
          Except.ok (nl, after.dropWhile (fun c => !isNetlocDelim c))
    | _ => Except.ok ([], rest)
  let (rest, fragment) :=
    if rest.contains '#'
    then (rest.takeWhile (fun c => c ≠ '#'), (rest.dropWhile (fun c => c ≠ '#')).drop 1)
    else (rest, [])
  let (path, query) :=
    if rest.contains '?'
    then (rest.takeWhile (fun c => c ≠ '?'), (rest.dropWhile (fun c => c ≠ '?')).drop 1)
    else (rest, [])
  pure (scheme, netloc, path, query, fragment)

/-- First index of `c` at or after `start`. -/
def findIdxFrom (c : Char) (start : Nat) (p : List Char) : Option Nat :=
  match (p.drop start).findIdx? (fun x => x = c) with
  | some j => some (start + j)
  | Option.none => Option.none

/-- Embedding of `_splitparams(url)`: split the `;params` of the last path
segment. -/
def splitparamsList (p : List Char) : List Char × List Char :=
  if p.contains '/' then
    let slashIdx :=
      match p.reverse.findIdx? (fun x => x = '/') with
      | some r => p.length - 1 - r
      | Option.none => 0
    match findIdxFrom ';' slashIdx p with
    | some i => (p.take i, p.drop (i + 1))
    | Option.none => (p, [])
  else
    match p.findIdx? (fun x => x = ';') with
    | some i => (p.take i, p.drop (i + 1))
    | Option.none => (p, [])

/-- Embedding of `urlparse(url)` restricted to the five components the
normalizer reads (the split-off `params` are discarded by it). -/
def pyUrlparse (cs : List Char) :
    Except String (List Char × List Char × List Char × List Char × List Char) := do
  let (scheme, netloc, path, query, fragment) ← pyUrlsplit cs
  let path :=
    if (String.mk scheme) ∈ usesParams ∧ path.contains ';'
    then (splitparamsList path).1 else path
  pure (scheme, netloc, path, query, fragment)

/-- The `_hostinfo` helper: drop the userinfo (up to the last `@`), then
split host and port (with bracketed IPv6 handling). -/
def hostinfoOf (nl : List Char) : List Char × Option (List Char) :=
  let hi :=
    match nl.reverse.findIdx? (fun c => c = '@') with
    | some r => nl.drop (nl.length - r)
    | Option.none => nl
  if hi.contains '[' then
    let afterBr := (hi.dropWhile (fun c => c ≠ '[')).drop 1
    let host := afterBr.takeWhile (fun c => c ≠ ']')
    let post := (afterBr.dropWhile (fun c => c ≠ ']')).drop 1
    let port := (post.dropWhile (fun c => c ≠ ':')).drop 1
    (host, if port.isEmpty then Option.none else some port)
  else
    let host := hi.takeWhile (fun c => c ≠ ':')
    let port := (hi.dropWhile (fun c => c ≠ ':')).drop 1
    (host, if port.isEmpty then Option.none else some port)

/-- The `hostname` property: `None` for an empty host, otherwise the host
lower-cased up to a `%` zone separator. -/
def hostnameOf (host : List Char) : Option (List Char) :=
  if host.isEmpty then Option.none
  else some (pyLowerList (host.takeWhile (fun c => c ≠ '%')) ++
             host.dropWhile (fun c => c ≠ '%'))

/-- The `port` property: parse the digits, raising on non-digit or
out-of-range ports exactly as CPython does. -/
def portOf (p? : Option (List Char)) : Except String (Option Int) :=
  match p? with
  | Option.none => .ok Option.none
  | some ds =>
      if ds.all Char.isDigit then
        let n : Int := Int.ofNat (ds.foldl (fun a c => a * 10 + (c.toNat - 48)) 0)
        if n ≤ 65535 then .ok (some n)
        else .error "Port out of range 0-65535"
      else .error ("Port could not be cast to integer value as '" ++ String.mk ds ++ "'")

/-- Embedding of `urlunsplit(components)`. -/
def urlunsplitList (scheme netloc url query fragment : List Char) : List Char :=
  let url :=
    if netloc ≠ [] ∨ (scheme ≠ [] ∧ (String.mk scheme) ∈ usesNetloc ∧ url.take 2 ≠ ['/', '/'])
    then
      let u2 := if url ≠ [] ∧ url.take 1 ≠ ['/'] then '/' :: url else url
      '/' :: '/' :: (netloc ++ u2)
    else url
  let url := if scheme ≠ [] then scheme ++ ':' :: url else url
  let url := if query ≠ [] then url ++ '?' :: query else url
  if fragment ≠ [] then url ++ '#' :: fragment else url

/-- Embedding of `_strip_trailing_git(url)` on the path characters. -/
def strip_trailing_git (p : List Char) : List Char :=
  if ".git".data.isSuffixOf p then p.take (p.length - 4) else p

/-- Python `s.rstrip("/")`. -/
def rstripSlash (p : List Char) : List Char :=
  (p.reverse.dropWhile (fun c => c = '/')).reverse

/-- Embedding of `_normalize_git_url(url)`: parse, lower-case scheme and
host, keep a non-default explicit port, strip one trailing `.git` then
trailing slashes from the path, drop query/params/fragment, and reassemble.
`Except.error` models the `ValueError` that `urlsplit` or the `port`
property raise on malformed input. -/
def normalize_git_url (url : String) : Except String String := do
  if url = "" then return ""
  let cs := pyStripList url.data
  let (scheme0, netloc0, path0, _query, _fragment) ← pyUrlparse cs
  let hi := hostinfoOf netloc0
  let host := hostnameOf hi.1
  let port ← portOf hi.2
  let scheme := pyLowerList scheme0
  let netloc1 := pyLowerList (host.getD [])
  let netloc2 :=
    match port with
    | some p =>
        if p ≠ 0 ∧ ¬((scheme = "https".data ∧ p = 443) ∨ (scheme = "http".data ∧ p = 80))
        then netloc1 ++ ':' :: (toString p).data
        else netloc1
    | Option.none => netloc1
  let path := rstripSlash (strip_trailing_git path0)
  return String.mk (urlunsplitList scheme netloc2 path [] [])

/-- Embedding of `project_key(obj)`: the normalized repository URL paired
with the stripped branch. -/
def project_key (obj : PyDict) : Except String (String × String) := do
  let urls ← pyAsStr (pyOr (pyGetD obj "scm_url" .none) (.str ""))
  let url ← normalize_git_url urls
  let brs ← pyAsStr (pyOr (pyGetD obj "scm_branch" .none) (.str ""))
  pure (url, pyStrip brs)

/-- First binding of a generic association list (used for the two index
shapes: tuple keys for the live map, rendered string keys for the export). -/
def alistGet {α β : Type} [DecidableEq α] (d : List (α × β)) (k : α) : Option β :=
  match d with
  | [] => Option.none
  | (k', v) :: rest => if k' = k then some v else alistGet rest k

/-- Key presence in a generic association list. -/
def alistHas {α β : Type} [DecidableEq α] (d : List (α × β)) (k : α) : Bool :=
  match d with
  | [] => false
  | (k', _) :: rest => k' = k || alistHas rest k

/-- Python dict assignment on a generic association list: overwrite the
first binding in place, else append. -/
def alistSet {α β : Type} [DecidableEq α] (d : List (α × β)) (k : α) (v : β) :
    List (α × β) :=
  match d with
  | [] => [(k, v)]
  | (k', v') :: rest =>
      if k' = k then (k', v) :: rest else (k', v') :: alistSet rest k v

/-- The `mapping.setdefault(k, obj)` loop of `load_projects_map_live`. -/
def loadLiveAux (acc : List ((String × String) × PyDict)) :
    List PyDict → Except String (List ((String × String) × PyDict))
  | [] => .ok acc
  | obj :: rest =>
      match project_key obj with
      | .error e => .error e
      | .ok k => loadLiveAux (if alistHas acc k then acc else acc ++ [(k, obj)]) rest

/-- Embedding of `load_projects_map_live` over a fully fetched listing:
first entity with a given key wins (`setdefault`). -/
def load_projects_map_live (objs : List PyDict) :
    Except String (List ((String × String) × PyDict)) :=
  loadLiveAux [] objs

/-- The minimal audit record stored per key by `export_atst_index`. -/
def minimalRecord (obj : PyDict) : PyDict :=
  [("name", pyGetD obj "name" .none),
   ("id", pyGetD obj "id" .none),
   ("scm_url", pyGetD obj "scm_url" .none),
   ("scm_branch", pyGetD obj "scm_branch" .none)]

/-- The rendered index key `f"{url}@@{branch}"`. -/
def keyString (k : String × String) : String :=
  k.1 ++ "@@" ++ k.2

/-- The `mapping[key] = {...}` loop of `export_atst_index`: plain dict
assignment, so a later duplicate overwrites. -/
def exportAux (acc : List (String × PyDict)) :
    List PyDict → Except String (List (String × PyDict))
  | [] => .ok acc
  | obj :: rest =>
      match project_key obj with
      | .error e => .error e
      | .ok k => exportAux (alistSet acc (keyString k) (minimalRecord obj)) rest

/-- Embedding of the mapping written by `export_atst_index` (the file
dressing around it is I/O). -/
def export_atst_index (objs : List PyDict) :
    Except String (List (String × PyDict)) :=
  exportAux [] objs

/-- First listed entity whose project key is `k`. -/
def firstWithKey (objs : List PyDict) (k : String × String) : Option PyDict :=
  objs.find? (fun o =>
    match project_key o with
    | .ok k' => decide (k' = k)
    | .error _ => false)

/-- Last listed entity whose rendered project key is `K`. -/
def lastWithKey (objs : List PyDict) (K : String) : Option PyDict :=
  objs.reverse.find? (fun o =>
    match project_key o with
    | .ok k' => decide (keyString k' = K)
    | .error _ => false)

theorem alistGet_append {α β : Type} [DecidableEq α] (a b : List (α × β)) (k : α) :
    alistGet (a ++ b) k =
      match alistGet a k with
      | some v => some v
      | Option.none => alistGet b k := by
  induction a with
  | nil => simp [alistGet]
  | cons hd tl ih =>
      obtain ⟨k₀, v₀⟩ := hd
      by_cases h0 : k₀ = k <;> simp [alistGet, h0, ih]

theorem alistHas_eq_isSome {α β : Type} [DecidableEq α] (d : List (α × β)) (k : α) :
    alistHas d k = (alistGet d k).isSome := by
  induction d with
  | nil => simp [alistHas, alistGet]
  | cons hd tl ih =>
      obtain ⟨k₀, v₀⟩ := hd
      by_cases h0 : k₀ = k <;> simp [alistHas, alistGet, h0, ih]

theorem alistGet_alistSet_self {α β : Type} [DecidableEq α]
    (d : List (α × β)) (k : α) (v : β) :
    alistGet (alistSet d k v) k = some v := by
  induction d with
  | nil => simp [alistSet, alistGet]
  | cons hd tl ih =>
      obtain ⟨k₀, v₀⟩ := hd
      by_cases h0 : k₀ = k <;> simp [alistSet, alistGet, h0, ih]

theorem alistGet_alistSet_ne {α β : Type} [DecidableEq α]
    (d : List (α × β)) (k k' : α) (v : β) (h : k ≠ k') :
    alistGet (alistSet d k v) k' = alistGet d k' := by
  induction d with
  | nil => simp [alistSet, alistGet, h]
  | cons hd tl ih =>
      obtain ⟨k₀, v₀⟩ := hd
      by_cases h0 : k₀ = k
      · subst h0
        simp [alistSet, alistGet, h]
      · simp [alistSet, alistGet, h0, ih]

/-- The `setdefault` loop keeps whatever the accumulator already binds and
otherwise binds each key to the first listing entity carrying it. -/
theorem loadLiveAux_get (objs : List PyDict)
    (acc m : List ((String × String) × PyDict)) (k : String × String)
    (h : loadLiveAux acc objs = .ok m) :
    alistGet m k =
      match alistGet acc k with
      | some v => some v
      | Option.none => firstWithKey objs k := by
  induction objs generalizing acc with
  | nil =>
      simp only [loadLiveAux] at h
      cases h
      cases hv : alistGet m k <;> simp [firstWithKey, hv]
  | cons obj rest ih =>
      rcases hpk : project_key obj with e | k0
      · rw [loadLiveAux, hpk] at h
        cases h
      · rw [loadLiveAux, hpk] at h
        have ih' := ih _ h
        rw [ih']
        have hfw : firstWithKey (obj :: rest) k =
            if k0 = k then some obj else firstWithKey rest k := by
          simp only [firstWithKey, List.find?]
          rcases hke : decide (k0 = k) with _ | _
          · simp only [hpk]
            rw [hke]
            simp [of_decide_eq_false hke]
          · simp only [hpk]
            rw [hke]
            simp [of_decide_eq_true hke]
        rw [hfw]
        by_cases hk : k0 = k
        · subst hk
          by_cases hacc : alistHas acc k0
          · rw [if_pos hacc]
            have : (alistGet acc k0).isSome := by rw [← alistHas_eq_isSome, hacc]
            rcases hv : alistGet acc k0 with _ | v
            · rw [hv] at this
              simp at this
            · simp [hv]
          · rw [if_neg hacc]
            have : alistGet acc k0 = Option.none := by
              rcases hv : alistGet acc k0 with _ | v
              · rfl
              · rw [alistHas_eq_isSome, hv] at hacc
                simp at hacc
            rw [alistGet_append, this]
            simp [alistGet]
        · have hne : ∀ d, alistGet (if alistHas acc k0 then acc
              else acc ++ [(k0, d)]) k = alistGet acc k := by
            intro d
            by_cases hacc : alistHas acc k0
            · rw [if_pos hacc]
            · rw [if_neg hacc, alistGet_append]
              rcases hv : alistGet acc k with _ | v <;> simp [alistGet, hk]
          rw [hne obj]
          simp [hk]

/-- The plain-assignment loop of the exporter binds each key to the last
listing entity carrying it, falling back to the accumulator. -/
theorem exportAux_get (objs : List PyDict)
    (acc e : List (String × PyDict)) (K : String)
    (h : exportAux acc objs = .ok e) :
    alistGet e K =
      match lastWithKey objs K with
      | some o => some (minimalRecord o)
      | Option.none => alistGet acc K := by
  induction objs generalizing acc with
  | nil =>
      simp only [exportAux] at h
      cases h
      simp [lastWithKey]
  | cons obj rest ih =>
      rcases hpk : project_key obj with e0 | k0
      · rw [exportAux, hpk] at h
        cases h
      · rw [exportAux, hpk] at h
        have ih' := ih _ h
        rw [ih']
        have hlast : lastWithKey (obj :: rest) K =
            (lastWithKey rest K).or
              (if keyString k0 = K then some obj else Option.none) := by
          by_cases hk : keyString k0 = K <;>
            simp [lastWithKey, List.reverse_cons, List.find?_append, List.find?, hpk, hk]
        rw [hlast]
        rcases hr : lastWithKey rest K with _ | o
        · simp only [Option.or]
          by_cases hk : keyString k0 = K
          · subst hk
            simp [alistGet_alistSet_self]
          · simp [hk, alistGet_alistSet_ne _ _ _ _ hk]
        · simp [Option.or]

/-- C1 amended. Building the live natural-key index uses `setdefault`, so
the first entity in listing order wins there; the exported index file uses
plain dict assignment, so for duplicated keys the exported mapping holds
the minimal record of the last entity in listing order, not the first. -/
theorem index_duplicate_policy (objs : List PyDict)
    (m : List ((String × String) × PyDict)) (e : List (String × PyDict))
    (k : String × String) (K : String)
    (hm : load_projects_map_live objs = .ok m)
    (he : export_atst_index objs = .ok e) :
    alistGet m k = firstWithKey objs k ∧
    alistGet e K = (lastWithKey objs K).map minimalRecord := by
  constructor
  · have := loadLiveAux_get objs [] m k hm
    simpa [alistGet] using this
  · have := exportAux_get objs [] e K he
    rw [this]
    rcases lastWithKey objs K with _ | o <;> simp [alistGet]

/-- The first of the two duplicate-key entities of the C1 scenario. -/
def dupA : PyDict :=
  [("id", .int 1), ("name", .str "A"),
   ("scm_url", .str "https://git.example.com/repo"), ("scm_branch", .str "main")]

/-- The second of the two duplicate-key entities of the C1 scenario. -/
def dupB : PyDict :=
  [("id", .int 2), ("name", .str "B"),
   ("scm_url", .str "https://git.example.com/repo"), ("scm_branch", .str "main")]

/-- Counterexample to C1 as stated: on the listing `[dupA, dupB]` with one
shared key, the live index keeps the first entity, but the exported index
mapping holds the minimal record of the second entity (`id` 2), so lookups
in the exported/offline index do not return the first entity. -/
theorem export_index_first_wins_counterexample :
    load_projects_map_live [dupA, dupB] =
      .ok [(("https://git.example.com/repo", "main"), dupA)] ∧
    export_atst_index [dupA, dupB] =
      .ok [("https://git.example.com/repo@@main", minimalRecord dupB)] ∧
    alistGet [("https://git.example.com/repo@@main", minimalRecord dupB)]
        "https://git.example.com/repo@@main" = some (minimalRecord dupB) ∧
    pyGet (minimalRecord dupB) "id" = some (.int 2) ∧
    pyGet (minimalRecord dupA) "id" = some (.int 1) ∧
    minimalRecord dupB ≠ minimalRecord dupA := by
  refine ⟨rfl, rfl, rfl, rfl, rfl, ?_⟩
  intro hEq
  have h2 : pyGet (minimalRecord dupB) "id" = some (.int 2) := rfl
  rw [hEq] at h2
  have h1 : pyGet (minimalRecord dupA) "id" = some (.int 1) := rfl
  rw [h1] at h2
  simp at h2

/-- Witness for the amended C1 theorem: on the duplicate listing, the live
lookup returns the first entity and the export lookup the last one's
minimal record, by instantiating the index theorem. -/
theorem index_duplicate_policy_witness :
    alistGet [(("https://git.example.com/repo", "main"), dupA)]
        ("https://git.example.com/repo", "main") = some dupA ∧
    alistGet [("https://git.example.com/repo@@main", minimalRecord dupB)]
        "https://git.example.com/repo@@main" = some (minimalRecord dupB) := by
  have h := index_duplicate_policy [dupA, dupB]
      [(("https://git.example.com/repo", "main"), dupA)]
      [("https://git.example.com/repo@@main", minimalRecord dupB)]
      ("https://git.example.com/repo", "main")
      "https://git.example.com/repo@@main" (by rfl) (by rfl)
  constructor
  · rw [h.1]
    rfl
  · rw [h.2]
    rfl

/-! Models of the two bulk runners of `migrate_projects.py`.  The HTTP
collaborators (`find_aap_project`, `create_aap_project`) are oracle
functions returning `Except` (an error models a raised transport error);
the `include`/`exclude` regular expressions are abstracted as name
predicates, which is all `should_migrate` observes of them. -/

/-- The `excluded` key set of `clean_project_for_aap`. -/
def projectExcludedKeys : List String :=
  ["id", "related", "summary_fields", "created", "modified", "last_job",
   "last_job_run", "current_update", "scm_last_revision", "default_environment",
   "signature_validation_credential", "last_update_failed", "status",
   "scm_revision", "organization"]

/-- Embedding of `clean_project_for_aap(src, org_id)`; `Except.error`
models the `ValueError` of `int(...)` on malformed numeric fields. -/
def clean_project_for_aap (src : PyDict) (org_id : Int) : Except String PyDict := do
  let cleaned := src.filter (fun kv => !decide (kv.1 ∈ projectExcludedKeys))
  let scmCache ← pyIntOf (pyOr (pyGetD cleaned "scm_update_cache_timeout" (.int 0)) (.int 0))
  let timeoutv ← pyIntOf (pyOr (pyGetD cleaned "timeout" (.int 0)) (.int 0))
  let payload : PyDict :=
    [("name", pyGetD cleaned "name" (.str "Unnamed Migrated Project")),
     ("description", pyOr (pyGetD cleaned "description" (.str "")) (.str "")),
     ("scm_type", pyOr (pyGetD cleaned "scm_type" .none) (.str "")),
     ("scm_url", pyOr (pyGetD cleaned "scm_url" .none) (.str "")),
     ("scm_branch", pyOr (pyGetD cleaned "scm_branch" .none) (.str "")),
     ("scm_clean", .bool (pyGetD cleaned "scm_clean" (.bool false)).truthy),
     ("scm_track_submodules", .bool (pyGetD cleaned "scm_track_submodules" (.bool false)).truthy),
     ("scm_delete_on_update", .bool (pyGetD cleaned "scm_delete_on_update" (.bool false)).truthy),
     ("scm_update_on_launch", .bool (pyGetD cleaned "scm_update_on_launch" (.bool false)).truthy),
     ("scm_update_cache_timeout", .int scmCache),
     ("timeout", .int timeoutv),
     ("allow_override", .bool (pyGetD cleaned "allow_override" (.bool false)).truthy),
     ("organization", .int org_id)]
  pure (if (pyGetD payload "scm_url" .none).truthy ∧ ¬(pyGetD payload "scm_type" .none).truthy
        then pySet payload "scm_type" (.str "git") else payload)

/-- Embedding of `should_migrate(name, include_re, exclude_re)` with the
regular expressions abstracted as search predicates. -/
def should_migrate (name : String) (inc exc : Option (String → Bool)) : Bool :=
  if (match inc with | some f => !f name | Option.none => false) then false
  else if (match exc with | some g => g name | Option.none => false) then false
  else true

/-- The display name of a listed project
(`p.get('name', f'project-{p.get("id","?")}')`). -/
def projName (p : PyDict) : String :=
  (pyGetD p "name" (.str ("project-" ++ (pyGetD p "id" (.str "?")).pyStr))).pyStr

/-- Embedding of `printable_key(key)`. -/
def printable_key (k : String × String) : String :=
  k.1 ++ "@" ++ (if k.2 = "" then "(default)" else k.2)

/-- The AAP collaborators of the project runners. -/
structure ProjOracle where
  find : String → Except String (Option PyDict)
  create : PyDict → Except String PyDict

/-- Counter state of `run_bulk_atst`. -/
structure BulkState where
  migrated : Nat
  skippedExisting : Nat
  skippedFiltered : Nat
  failures : Nat
  processed : Nat

/-- Python `args.limit and processed >= args.limit`. -/
def limitHit (limit : Option Int) (processed : Nat) : Bool :=
  match limit with
  | some n => n ≠ 0 && n ≤ (processed : Int)
  | Option.none => false

/-- The candidate loop of `run_bulk_atst`: `processed` is incremented for
every listed candidate, before the include/exclude filter, and the cap is
checked in the filtered branch too. -/
def bulkLoop (o : ProjOracle) (org : Int) (inc exc : Option (String → Bool))
    (dry : Bool) (limit : Option Int) (c : BulkState) :
    List PyDict → BulkState
  | [] => c
  | p :: rest =>
      let name := projName p
      let c1 : BulkState := ⟨c.migrated, c.skippedExisting, c.skippedFiltered,
                             c.failures, c.processed + 1⟩
      if !should_migrate name inc exc then
        let c2 : BulkState := ⟨c1.migrated, c1.skippedExisting,
                               c1.skippedFiltered + 1, c1.failures, c1.processed⟩
        if limitHit limit c2.processed then c2
        else bulkLoop o org inc exc dry limit c2 rest
      else
        let c2 : BulkState :=
          match o.find name with
          | .error _ => ⟨c1.migrated, c1.skippedExisting, c1.skippedFiltered,
                         c1.failures + 1, c1.processed⟩
          | .ok (some _) => ⟨c1.migrated, c1.skippedExisting + 1,
                             c1.skippedFiltered, c1.failures, c1.processed⟩
          | .ok Option.none =>
              match clean_project_for_aap p org with
              | .error _ => ⟨c1.migrated, c1.skippedExisting, c1.skippedFiltered,
                             c1.failures + 1, c1.processed⟩
              | .ok payload =>
                  if dry then ⟨c1.migrated + 1, c1.skippedExisting,
                               c1.skippedFiltered, c1.failures, c1.processed⟩
                  else
                    match o.create payload with
                    | .error _ => ⟨c1.migrated, c1.skippedExisting,
                                   c1.skippedFiltered, c1.failures + 1, c1.processed⟩
                    | .ok _ => ⟨c1.migrated + 1, c1.skippedExisting,
                                c1.skippedFiltered, c1.failures, c1.processed⟩
        if limitHit limit c2.processed then c2
        else bulkLoop o org inc exc dry limit c2 rest

/-- Embedding of the `run_bulk_atst` loop and its exit code (0 on zero
failures, 2 otherwise). -/
def run_bulk_atst (o : ProjOracle) (org : Int) (inc exc : Option (String → Bool))
    (dry : Bool) (limit : Option Int) (objs : List PyDict) : BulkState × Int :=
  let c := bulkLoop o org inc exc dry limit ⟨0, 0, 0, 0, 0⟩ objs
  (c, if c.failures = 0 then 0 else 2)

/-- Counter-and-receipt state of `run_prod_compare`. -/
structure ProdState where
  migrated : Nat
  matched : Nat
  filtered : Nat
  failures : Nat
  processed : Nat
  receipt : List String

/-- The candidate loop of `run_prod_compare`: the filtered branch skips to
the next candidate without touching `processed` or the cap check;
`project_key` and `clean_project_for_aap` raise outside the `try`, killing
the run. -/
def prodLoop (o : ProjOracle) (org : Int) (pfx : String)
    (inc exc : Option (String → Bool)) (dry : Bool) (limit : Option Int)
    (atst_map : List ((String × String) × PyDict)) (c : ProdState) :
    List PyDict → Except String ProdState
  | [] => .ok c
  | p :: rest =>
      let name := projName p
      if !should_migrate name inc exc then
        prodLoop o org pfx inc exc dry limit atst_map
          ⟨c.migrated, c.matched, c.filtered + 1, c.failures, c.processed, c.receipt⟩ rest
      else
        let stepTo : ProdState → Except String ProdState := fun c1 =>
          if limitHit limit c1.processed then .ok c1
          else prodLoop o org pfx inc exc dry limit atst_map c1 rest
        match project_key p with
        | .error e => .error e
        | .ok key =>
            let pretty := printable_key key
            match alistGet atst_map key with
            | some am =>
                let line := "MATCH: ATST name='" ++ projName am ++
                            "', PROD name='" ++ name ++ "', key=" ++ pretty
                stepTo ⟨c.migrated, c.matched + 1, c.filtered, c.failures,
                        c.processed + 1, c.receipt ++ [line]⟩
            | Option.none =>
                match clean_project_for_aap p org with
                | .error e => .error e
                | .ok payload0 =>
                    let payload := pySet payload0 "name"
                      (.str (pfx ++ (pyGetD payload0 "name" .none).pyStr))
                    if dry then
                      let line := "DRYRUN-CREATE: name='" ++
                        (pyGetD payload "name" .none).pyStr ++ "', from PROD='" ++
                        name ++ "', key=" ++ pretty
                      stepTo ⟨c.migrated + 1, c.matched, c.filtered, c.failures,
                              c.processed + 1, c.receipt ++ [line]⟩
                    else
                      match o.create payload with
                      | .ok created =>
                          let line := "CREATED: AAP id=" ++
                            (pyGetD created "id" .none).pyStr ++ ", name='" ++
                            (pyGetD payload "name" .none).pyStr ++ "', from PROD='" ++
                            name ++ "', key=" ++ pretty
                          stepTo ⟨c.migrated + 1, c.matched, c.filtered, c.failures,
                                  c.processed + 1, c.receipt ++ [line]⟩
                      | .error e =>
                          let msg := "ERROR creating from PROD '" ++ name ++
                            "' key=" ++ pretty ++ ": " ++ e
                          stepTo ⟨c.migrated, c.matched, c.filtered, c.failures + 1,
                                  c.processed + 1, c.receipt ++ [msg]⟩

/-- Embedding of the `run_prod_compare` loop; the returned state carries
the receipt lines accumulated for the (possibly partial) run, which the
function then writes out along with the summary counts. -/
def run_prod_compare (o : ProjOracle) (org : Int) (pfx : String)
    (inc exc : Option (String → Bool)) (dry : Bool) (limit : Option Int)
    (atst_map : List ((String × String) × PyDict)) (objs : List PyDict) :
    Except String ProdState :=
  prodLoop o org pfx inc exc dry limit atst_map ⟨0, 0, 0, 0, 0, []⟩ objs

/-- Count of listed candidates passing the include/exclude filter. -/
def countNonFiltered (inc exc : Option (String → Bool)) (objs : List PyDict) : Nat :=
  (objs.filter (fun p => should_migrate (projName p) inc exc)).length

/-- In `run_bulk_atst`, every listed candidate — filtered or not — advances
the cap counter, so a positive cap `N` stops the loop after
`min N (length of the listing)` candidates. -/
theorem bulkLoop_processed (o : ProjOracle) (org : Int)
    (inc exc : Option (String → Bool)) (dry : Bool) (N : Int) (hN : 0 < N)
    (objs : List PyDict) (c : BulkState) (hc : (c.processed : Int) < N) :
    (bulkLoop o org inc exc dry (some N) c objs).processed =
      min N.toNat (c.processed + objs.length) := by
  induction objs generalizing c with
  | nil =>
      simp only [bulkLoop, List.length_nil, Nat.add_zero]
      omega
  | cons p rest ih =>
      have hstep : ∀ m se sf f : Nat,
          (if limitHit (some N) (c.processed + 1) = true
           then (⟨m, se, sf, f, c.processed + 1⟩ : BulkState)
           else bulkLoop o org inc exc dry (some N)
                  ⟨m, se, sf, f, c.processed + 1⟩ rest).processed =
            min N.toNat (c.processed + (rest.length + 1)) := by
        intro m se sf f
        by_cases hstop : N ≤ (c.processed : Int) + 1
        · have hlim : limitHit (some N) (c.processed + 1) = true := by
            simp [limitHit]
            omega
          rw [if_pos hlim]
          show c.processed + 1 = _
          omega
        · have hlim : limitHit (some N) (c.processed + 1) = false := by
            simp [limitHit]
            omega
          rw [hlim]
          simp only [Bool.false_eq_true, if_false]
          rw [ih ⟨m, se, sf, f, c.processed + 1⟩ (by push_cast; omega)]
          show min N.toNat (c.processed + 1 + rest.length) = _
          omega
      cases hm : should_migrate (projName p) inc exc
      · simp only [bulkLoop, hm, Bool.not_false, if_true, List.length_cons]
        exact hstep _ _ _ _
      · rcases hf : o.find (projName p) with e | f
        · simp only [bulkLoop, hm, Bool.not_true, Bool.false_eq_true, if_false, hf,
            List.length_cons]
          exact hstep _ _ _ _
        · rcases f with _ | d
          · rcases hcl : clean_project_for_aap p org with e | payload
            · simp only [bulkLoop, hm, Bool.not_true, Bool.false_eq_true, if_false, hf,
                hcl, List.length_cons]
              exact hstep _ _ _ _
            · cases dry
              · rcases hcr : o.create payload with e | created
                · simp only [bulkLoop, hm, Bool.not_true, Bool.false_eq_true, if_false,
                    hf, hcl, hcr, List.length_cons]
                  exact hstep _ _ _ _
                · simp only [bulkLoop, hm, Bool.not_true, Bool.false_eq_true, if_false,
                    hf, hcl, hcr, List.length_cons]
                  exact hstep _ _ _ _
              · simp only [bulkLoop, hm, Bool.not_true, Bool.false_eq_true, if_false,
                  hf, hcl, if_true, List.length_cons]
                exact hstep _ _ _ _
          · simp only [bulkLoop, hm, Bool.not_true, Bool.false_eq_true, if_false, hf,
              List.length_cons]
            exact hstep _ _ _ _

/-- In `run_prod_compare`, filtered candidates advance neither `processed`
nor the cap; a positive cap `N` stops the loop after
`min N (non-filtered candidates)` processed candidates, and every processed
candidate contributes exactly one receipt line and exactly one of the
matched/migrated/failed outcomes. -/
theorem prodLoop_spec (o : ProjOracle) (org : Int) (pfx : String)
    (inc exc : Option (String → Bool)) (dry : Bool) (N : Int) (hN : 0 < N)
    (atst_map : List ((String × String) × PyDict))
    (objs : List PyDict) (c r : ProdState) (hc : (c.processed : Int) < N)
    (h : prodLoop o org pfx inc exc dry (some N) atst_map c objs = .ok r) :
    r.processed = min N.toNat (c.processed + countNonFiltered inc exc objs) ∧
    r.receipt.length + c.matched + c.migrated + c.failures =
      c.receipt.length + r.matched + r.migrated + r.failures := by
  induction objs generalizing c with
  | nil =>
      simp only [prodLoop] at h
      cases h
      constructor
      · simp only [countNonFiltered, List.filter_nil, List.length_nil, Nat.add_zero]
        omega
      · omega
  | cons p rest ih =>
      cases hm : should_migrate (projName p) inc exc
      · have hcount : countNonFiltered inc exc (p :: rest) =
            countNonFiltered inc exc rest := by
          simp [countNonFiltered, List.filter_cons, hm]
        rw [hcount]
        simp only [prodLoop, hm, Bool.not_false, if_true] at h
        have := ih ⟨c.migrated, c.matched, c.filtered + 1, c.failures,
            c.processed, c.receipt⟩ hc h
        exact ⟨this.1, this.2⟩
      · have hcount : countNonFiltered inc exc (p :: rest) =
            countNonFiltered inc exc rest + 1 := by
          simp [countNonFiltered, List.filter_cons, hm]
        rw [hcount]
        simp only [prodLoop, hm, Bool.not_true, Bool.false_eq_true, if_false] at h
        have hstep : ∀ (mg mt fl fa : Nat) (line : String),
            mt + mg + fa = c.matched + c.migrated + c.failures + 1 →
            (if limitHit (some N) (c.processed + 1) = true
             then Except.ok (⟨mg, mt, fl, fa, c.processed + 1,
                    c.receipt ++ [line]⟩ : ProdState)
             else prodLoop o org pfx inc exc dry (some N) atst_map
                    ⟨mg, mt, fl, fa, c.processed + 1, c.receipt ++ [line]⟩ rest) =
              .ok r →
            r.processed = min N.toNat (c.processed + (countNonFiltered inc exc rest + 1)) ∧
            r.receipt.length + c.matched + c.migrated + c.failures =
              c.receipt.length + r.matched + r.migrated + r.failures := by
          intro mg mt fl fa line hsum h1
          by_cases hstop : N ≤ (c.processed : Int) + 1
          · have hlim : limitHit (some N) (c.processed + 1) = true := by
              simp [limitHit]
              omega
            rw [hlim, if_pos rfl] at h1
            cases h1
            refine ⟨?_, ?_⟩ <;> simp <;> omega
          · have hlim : limitHit (some N) (c.processed + 1) = false := by
              simp [limitHit]
              omega
            rw [hlim] at h1
            simp only [Bool.false_eq_true, if_false] at h1
            have hih := ih ⟨mg, mt, fl, fa, c.processed + 1, c.receipt ++ [line]⟩
                (by push_cast; omega) h1
            have h1p := hih.1
            have h2p := hih.2
            simp only [List.length_append, List.length_cons, List.length_nil] at h1p h2p
            constructor
            · rw [h1p]
              show min _ (c.processed + 1 + countNonFiltered inc exc rest) = _
              omega
            · omega
        rcases hpk : project_key p with e | key
        · rw [hpk] at h
          cases h
        · simp only [hpk] at h
          rcases ham : alistGet atst_map key with _ | am
          · simp only [ham] at h
            rcases hcl : clean_project_for_aap p org with e | payload0
            · simp only [hcl] at h
              cases h
            · simp only [hcl] at h
              split at h
              · exact hstep _ _ _ _ _ (by omega) h
              · rcases hcr : o.create (pySet payload0 "name"
                    (.str (pfx ++ (pyGetD payload0 "name" .none).pyStr))) with e | created
                · simp only [hcr] at h
                  exact hstep _ _ _ _ _ (by omega) h
                · simp only [hcr] at h
                  exact hstep _ _ _ _ _ (by omega) h
          · simp only [ham] at h
            exact hstep _ _ _ _ _ (by omega) h

/-- C7 amended. With a positive element cap `N`: in prod-compare mode the
cap counts only non-filtered (processed) candidates and the emitted receipt
keeps one line per recorded outcome (`matched + migrated + failed`); in the
ATST bulk mode, however, filtered candidates also count toward the cap, so
that run halts after `min N (listing length)` candidates regardless of the
filter. -/
theorem element_cap_spec (o : ProjOracle) (org : Int) (pfx : String)
    (inc exc : Option (String → Bool)) (dry : Bool) (N : Int)
    (atst_map : List ((String × String) × PyDict)) (objs : List PyDict)
    (r : ProdState) (hN : 0 < N)
    (hp : run_prod_compare o org pfx inc exc dry (some N) atst_map objs = .ok r) :
    r.processed = min N.toNat (countNonFiltered inc exc objs) ∧
    r.receipt.length = r.matched + r.migrated + r.failures ∧
    (run_bulk_atst o org inc exc dry (some N) objs).1.processed =
      min N.toNat objs.length := by
  have h := prodLoop_spec o org pfx inc exc dry N hN atst_map objs
      ⟨0, 0, 0, 0, 0, []⟩ r (by simp; omega) hp
  refine ⟨by simpa using h.1, by simpa using h.2, ?_⟩
  simpa using bulkLoop_processed o org inc exc dry N hN objs ⟨0, 0, 0, 0, 0⟩
    (by simp; omega)

/-- A candidate rejected by the exclude filter in the C7 scenario. -/
def c7Skip : PyDict := [("name", .str "skipme")]

/-- A migratable candidate in the C7 scenario. -/
def c7New : PyDict :=
  [("name", .str "proj"), ("scm_url", .str "https://h/r"), ("scm_branch", .str "main")]

/-- The exclude predicate of the C7 scenario (a regex matching `skipme`). -/
def c7Exc : Option (String → Bool) := some (fun n => n = "skipme")

/-- The AAP oracle of the C7 scenario: nothing exists, creation succeeds. -/
def c7Oracle : ProjOracle :=
  ⟨fun _ => .ok Option.none, fun _ => .ok [("id", PyVal.int 9)]⟩

/-- The prod-compare outcome of the C7 scenario under cap 1. -/
def c7ProdResult : ProdState :=
  ⟨1, 0, 1, 0, 1,
   ["CREATED: AAP id=9, name='PROD_proj', from PROD='proj', key=https://h/r@main"]⟩

/-- Counterexample to C7 as stated: in `run_bulk_atst` the filtered
candidate does count toward the cap.  With cap 1 over a filtered candidate
followed by a migratable one, the run halts after the filtered candidate
with zero non-filtered candidates processed (no outcome recorded), whereas
without the cap the second candidate is migrated. -/
theorem bulk_cap_counts_filtered_counterexample :
    (run_bulk_atst c7Oracle 1 Option.none c7Exc false (some 1) [c7Skip, c7New]).1 =
      ⟨0, 0, 1, 0, 1⟩ ∧
    (run_bulk_atst c7Oracle 1 Option.none c7Exc false Option.none [c7Skip, c7New]).1 =
      ⟨1, 0, 1, 0, 2⟩ ∧
    countNonFiltered Option.none c7Exc [c7Skip, c7New] = 1 := by
  exact ⟨rfl, rfl, rfl⟩

/-- Witness for the amended C7 theorem: on the two-candidate scenario with
cap 1, prod-compare processes exactly one (the non-filtered) candidate and
keeps one receipt line per outcome, while the bulk runner halts after one
listed candidate; by instantiating the cap theorem. -/
theorem element_cap_spec_witness :
    c7ProdResult.processed =
      min (1 : Int).toNat (countNonFiltered Option.none c7Exc [c7Skip, c7New]) ∧
    c7ProdResult.receipt.length =
      c7ProdResult.matched + c7ProdResult.migrated + c7ProdResult.failures ∧
    (run_bulk_atst c7Oracle 1 Option.none c7Exc false (some 1)
        [c7Skip, c7New]).1.processed =
      min (1 : Int).toNat ([c7Skip, c7New].length) := by
  exact element_cap_spec c7Oracle 1 "PROD_" Option.none c7Exc false 1 []
    [c7Skip, c7New] c7ProdResult (by decide) (by rfl)

/-! Model of the per-template migration of `migrate_job_templates.py`.
Reads and writes against the two platforms are an oracle record of
`Except`-valued functions (an error is a raised transport/validation
error); mutating calls performed by a run are collected in an explicit
action log.  Name references are taken when they are nonempty strings —
the scripts read them out of API summary fields, which carry strings. -/

/-- The run parameters of `migrate_job_templates.py` that the migration
logic reads. -/
structure JtArgs where
  aap_host : String
  org : Int
  dry_run : Bool
  with_notifications : Bool
  with_schedules : Bool
  force_ee_id : Option Int
  force_machine_cred_id : Option Int

/-- The AWX/AAP collaborators of `migrate_one`, keyed by the helper that
wraps each HTTP call. -/
structure JtOracle where
  qOne : String → String → Except String (Option PyDict)
  getEE : Int → Except String PyDict
  getCred : Int → Except String PyDict
  findJt : String → Except String (Option PyDict)
  surveySpec : Int → Option PyDict
  createJt : PyDict → Except String PyDict
  postSurvey : Int → PyDict → Except String PyDict
  patchJt : Int → PyDict → Except String PyDict
  surveyCheck : Int → Except String PyDict
  jtCreds : Int → Except String (List PyDict)
  findCred : String → PyVal → Except String (Option PyDict)
  attachCredPost : Int → Int → Except String PyDict
  jtNotifs : Int → Except String (List PyDict × List PyDict × List PyDict)
  findNotif : String → Except String (Option PyDict)
  createNotif : PyDict → Except String PyDict
  attachNotifPost : Int → String → PyDict → Except String PyDict
  jtSchedules : Int → Except String (List PyDict)
  schedPost : PyDict → Nat → PyDict → Option String
  schedVerify : Int → Except String PyDict
  tzdb : String → Option Int

/-- The mutating calls a run can perform. -/
inductive JtAction where
  | createJt (payload : PyDict)
  | postSurveySpec (jt : Int) (spec : PyDict)
  | patchSurveyEnabled (jt : Int)
  | attachCred (jt cred : Int)
  | createNotifTemplate (payload : PyDict)
  | attachNotifTemplate (jt : Int) (path : String) (idv : PyVal)
  | schedCreateEvents (events : List SchedEvent)

/-- Integer `d['id']`; raises on a missing or non-integer id (the scripts
feed ids into further API paths as integers). -/
def getIdInt (d : PyDict) : Except String Int :=
  match pyGet d "id" with
  | some (.int n) => .ok n
  | some _ => .error "non-integer id"
  | Option.none => .error "KeyError: 'id'"

/-- Embedding of `assert_ee_exists_by_id`: fetch the execution environment
and raise unless its organization is `None` or the target org. -/
def assert_ee_exists_by_id (o : JtOracle) (ee_id org : Int) : Except String Unit :=
  match o.getEE ee_id with
  | .error e => .error e
  | .ok d =>
      match pyGetD d "organization" .none with
      | .none => .ok ()
      | .int n =>
          if n = org then .ok ()
          else .error ("Execution Environment id " ++ toString ee_id ++
            " belongs to organization " ++ toString n ++
            ", which does not match target org " ++ toString org ++ ".")
      | _ => .error "Execution Environment organization mismatch"

/-- Embedding of `assert_credential_exists_by_id`. -/
def assert_credential_exists_by_id (o : JtOracle) (cred_id org : Int) :
    Except String Unit :=
  match o.getCred cred_id with
  | .error e => .error e
  | .ok d =>
      match pyGetD d "organization" .none with
      | .none => .ok ()
      | .int n =>
          if n = org then .ok ()
          else .error ("Credential id " ++ toString cred_id ++
            " belongs to organization " ++ toString n ++
            ", which does not match target org " ++ toString org ++ ".")
      | _ => .error "Credential organization mismatch"

/-- Last stage of `ensure_refs`: the execution-environment override is
mandatory, validated by id. -/
def ensureRefsEE (o : JtOracle) (org : Int) (proj_id inv_id : Option Int)
    (forced_ee : Option Int) : Except String (Option Int × Option Int × Option Int) :=
  match forced_ee with
  | Option.none =>
      .error "You must supply --force-ee-id to set the Execution Environment by API id."
  | some ee =>
      match assert_ee_exists_by_id o ee org with
      | .error e => .error e
      | .ok _ => .ok (proj_id, inv_id, some ee)

/-- Middle stage of `ensure_refs`: resolve the inventory name. -/
def ensureRefsInv (o : JtOracle) (org : Int) (proj_id : Option Int)
    (inv_name : Option String) (forced_ee : Option Int) :
    Except String (Option Int × Option Int × Option Int) :=
  match inv_name with
  | some iname =>
      match o.qOne "inventories" iname with
      | .error e => .error e
      | .ok Option.none =>
          .error ("Inventory '" ++ iname ++ "' not found in AAP org " ++ toString org)
      | .ok (some i) =>
          match getIdInt i with
          | .error e => .error e
          | .ok iid => ensureRefsEE o org proj_id (some iid) forced_ee
  | Option.none => ensureRefsEE o org proj_id Option.none forced_ee

/-- Embedding of `ensure_refs(...)`: resolve project and inventory names,
then require and validate the forced execution environment. -/
def ensure_refs (o : JtOracle) (org : Int) (proj_name inv_name : Option String)
    (forced_ee : Option Int) : Except String (Option Int × Option Int × Option Int) :=
  match proj_name with
  | some pname =>
      match o.qOne "projects" pname with
      | .error e => .error e
      | .ok Option.none =>
          .error ("Project '" ++ pname ++ "' not found in AAP org " ++ toString org)
      | .ok (some p) =>
          match getIdInt p with
          | .error e => .error e
          | .ok pid => ensureRefsInv o org (some pid) inv_name forced_ee
  | Option.none => ensureRefsInv o org Option.none inv_name forced_ee

/-- The display name of a job template
(`obj.get('name', f"jt-{obj.get('id', '?')}")`). -/
def jtName (obj : PyDict) : String :=
  (pyGetD obj "name" (.str ("jt-" ++ (pyGetD obj "id" (.str "?")).pyStr))).pyStr

/-- A field name read out of `summary_fields`
(`(sf.get(field) or {}).get('name')`), taken when a nonempty string. -/
def summaryName (obj : PyDict) (field : String) : Option String :=
  let sf := match pyOr (pyGetD obj "summary_fields" .none) (.obj []) with
            | .obj l => l
            | _ => []
  let sub := match pyOr (pyGetD sf field .none) (.obj []) with
             | .obj l => l
             | _ => []
  match pyGet sub "name" with
  | some (.str s) => if s = "" then Option.none else some s
  | _ => Option.none

/-- Embedding of `resolve_cred_ids` with the dedup accumulator `ids`. -/
def resolve_cred_ids (o : JtOracle) (org : Int) (force_mc : Option Int)
    (ids : List Int) : List PyDict → Except String (List Int)
  | [] => .ok ids
  | cd :: rest =>
      let nm := pyGetD cd "name" .none
      let sf := match pyOr (pyGetD cd "summary_fields" .none) (.obj []) with
                | .obj l => l
                | _ => []
      let ctype := match pyOr (pyGetD sf "credential_type" .none) (.obj []) with
                   | .obj l => l
                   | _ => []
      let typeNameVal := pyGetD ctype "name" .none
      match force_mc with
      | some m =>
          match pyOr typeNameVal (.str "") with
          | .str ts =>
              if pyLower ts = "machine" then
                match assert_credential_exists_by_id o m org with
                | .error e => .error e
                | .ok _ =>
                    resolve_cred_ids o org force_mc
                      (if m ∈ ids then ids else ids ++ [m]) rest
              else
                if !nm.truthy then resolve_cred_ids o org force_mc ids rest
                else
                  match nm with
                  | .str nms =>
                      match o.findCred nms typeNameVal with
                      | .error e => .error e
                      | .ok Option.none =>
                          .error ("Credential '" ++ nms ++ "' not found in AAP. " ++
                            "Migrate credentials first or supply --force-machine-cred-id for Machine creds.")
                      | .ok (some fd) =>
                          match getIdInt fd with
                          | .error e => .error e
                          | .ok cid =>
                              resolve_cred_ids o org force_mc
                                (if cid ∈ ids then ids else ids ++ [cid]) rest
                  | _ => .error "TypeError: credential name is not a string"
          | _ => .error "AttributeError: credential type name has no lower()"
      | Option.none =>
          if !nm.truthy then resolve_cred_ids o org force_mc ids rest
          else
            match nm with
            | .str nms =>
                match o.findCred nms typeNameVal with
                | .error e => .error e
                | .ok Option.none =>
                    .error ("Credential '" ++ nms ++ "' not found in AAP. " ++
                      "Migrate credentials first or supply --force-machine-cred-id for Machine creds.")
                | .ok (some fd) =>
                    match getIdInt fd with
                    | .error e => .error e
                    | .ok cid =>
                        resolve_cred_ids o org force_mc
                          (if cid ∈ ids then ids else ids ++ [cid]) rest
            | _ => .error "TypeError: credential name is not a string"

/-- Attach each resolved credential id to the job template in order. -/
def attachCredsLoop (o : JtOracle) (jt : Int) (log : List JtAction) :
    List Int → Except String Unit × List JtAction
  | [] => (.ok (), log)
  | cid :: rest =>
      match o.attachCredPost jt cid with
      | .error e => (.error e, log)
      | .ok _ => attachCredsLoop o jt (log ++ [.attachCred jt cid]) rest

/-- Embedding of the inner loop of `attach_notifs_email` for one
notification kind (path): filter to email templates, find-or-create, then
attach. -/
def attachNotifLoop (o : JtOracle) (org jt : Int) (dry : Bool)
    (secrets_map : List (String × PyDict)) (path : String) (log : List JtAction) :
    List PyDict → Except String Unit × List JtAction
  | [] => (.ok (), log)
  | n :: rest =>
      match pyOr (pyGetD n "notification_type" .none) (.str "") with
      | .str t =>
          if pyLower t ≠ "email" then
            attachNotifLoop o org jt dry secrets_map path log rest
          else
            let namev := pyGetD n "name" .none
            if !namev.truthy then
              attachNotifLoop o org jt dry secrets_map path log rest
            else
              match namev with
              | .str name =>
                  match o.findNotif name with
                  | .error e => (.error e, log)
                  | .ok (some ex) =>
                      let idv := pyGetD ex "id" .none
                      if dry then
                        attachNotifLoop o org jt dry secrets_map path log rest
                      else
                        match o.attachNotifPost jt path [("id", idv)] with
                        | .error e => (.error e, log)
                        | .ok _ =>
                            attachNotifLoop o org jt dry secrets_map path
                              (log ++ [.attachNotifTemplate jt path idv]) rest
                  | .ok Option.none =>
                      match pyOr (pyGetD n "notification_configuration" .none) (.obj []) with
                      | .obj src =>
                          let conf := merge_email_config src
                            ((alistGet secrets_map name).getD [])
                          if dry then
                            attachNotifLoop o org jt dry secrets_map path log rest
                          else
                            let payload : PyDict :=
                              [("name", .str name),
                               ("description",
                                pyOr (pyGetD n "description" (.str "")) (.str "")),
                               ("organization", .int org),
                               ("notification_type", .str "email"),
                               ("notification_configuration", .obj conf)]
                            match o.createNotif payload with
                            | .error e => (.error e, log)
                            | .ok created =>
                                let idv := pyGetD created "id" .none
                                match o.attachNotifPost jt path [("id", idv)] with
                                | .error e =>
                                    (.error e, log ++ [.createNotifTemplate payload])
                                | .ok _ =>
                                    attachNotifLoop o org jt dry secrets_map path
                                      (log ++ [.createNotifTemplate payload,
                                               .attachNotifTemplate jt path idv]) rest
                      | _ => (.error "TypeError: notification configuration", log)
              | _ => (.error "TypeError: notification name is not a string", log)
      | _ => (.error "AttributeError: notification type has no lower()", log)

/-- The schedule loop of `migrate_one`: skip empty rules, count dry runs,
otherwise submit through the four-variant sequence. -/
def schedLoop (o : JtOracle) (a : JtArgs) (jt : Int) (inv : Option Int)
    (log : List JtAction) (cnt : Nat) :
    List PyDict → Except String Unit × List JtAction
  | [] => (.ok (), log)
  | s :: rest =>
      match pyOr (pyGetD s "rrule" .none) (.str "") with
      | .str rr =>
          if pyStrip rr = "" then schedLoop o a jt inv log cnt rest
          else if a.dry_run then schedLoop o a jt inv log (cnt + 1) rest
          else
            match try_create_schedule o.tzdb (o.schedPost s) a.aap_host jt inv s with
            | .error e => (.error e, log)
            | .ok res =>
                schedLoop o a jt inv (log ++ [.schedCreateEvents res.2])
                  (if res.1 then cnt + 1 else cnt) rest
      | _ => (.error "AttributeError: rrule has no strip()", log)

/-- The tail of `migrate_one` once a target job-template id is known:
survey copy, credentials, notifications, schedules. -/
def migrateOneRest (o : JtOracle) (a : JtArgs) (obj : PyDict) (srcId : Int)
    (survey : Option PyDict) (inv_id : Option Int) (jtIdv : PyVal)
    (log : List JtAction) (secrets_map : List (String × PyDict)) :
    Except String Unit × List JtAction :=
  match jtIdv with
  | .none =>
      (.error ("Internal error: jt_id not set for template '" ++ jtName obj ++ "'"), log)
  | .int jt =>
      -- Survey: POST the spec then enable it (both raise on failure);
      -- the verification GET swallows its own errors.
      let surveyStep : Except String Unit × List JtAction :=
        match survey with
        | some ss =>
            if a.dry_run then (.ok (), log)
            else
              match o.postSurvey jt ss with
              | .error e => (.error e, log)
              | .ok _ =>
                  match o.patchJt jt [("survey_enabled", .bool true)] with
                  | .error e => (.error e, log ++ [.postSurveySpec jt ss])
                  | .ok _ =>
                      (.ok (), log ++ [.postSurveySpec jt ss, .patchSurveyEnabled jt])
        | Option.none => (.ok (), log)
      match surveyStep with
      | (.error e, l) => (.error e, l)
      | (.ok _, l1) =>
          match o.jtCreds srcId with
          | .error e => (.error e, l1)
          | .ok creds =>
              let credStep : Except String Unit × List JtAction :=
                if creds.isEmpty then (.ok (), l1)
                else if a.dry_run then (.ok (), l1)
                else
                  match resolve_cred_ids o a.org a.force_machine_cred_id [] creds with
                  | .error e => (.error e, l1)
                  | .ok ids => attachCredsLoop o jt l1 ids
              match credStep with
              | (.error e, l) => (.error e, l)
              | (.ok _, l2) =>
                  let notifStep : Except String Unit × List JtAction :=
                    if !a.with_notifications then (.ok (), l2)
                    else
                      match o.jtNotifs srcId with
                      | .error e => (.error e, l2)
                      | .ok nt =>
                          if nt.1.isEmpty && nt.2.1.isEmpty && nt.2.2.isEmpty then
                            (.ok (), l2)
                          else if a.dry_run then (.ok (), l2)
                          else
                            match attachNotifLoop o a.org jt a.dry_run secrets_map
                                "notification_templates_started" l2 nt.1 with
                            | (.error e, l) => (.error e, l)
                            | (.ok _, la) =>
                                match attachNotifLoop o a.org jt a.dry_run secrets_map
                                    "notification_templates_success" la nt.2.1 with
                                | (.error e, l) => (.error e, l)
                                | (.ok _, lb) =>
                                    attachNotifLoop o a.org jt a.dry_run secrets_map
                                      "notification_templates_error" lb nt.2.2
                  match notifStep with
                  | (.error e, l) => (.error e, l)
                  | (.ok _, l3) =>
                      if !a.with_schedules then (.ok (), l3)
                      else
                        match o.jtSchedules srcId with
                        | .error e => (.error e, l3)
                        | .ok scheds =>
                            match schedLoop o a jt inv_id l3 0 scheds with
                            | (.error e, l) => (.error e, l)
                            | (.ok _, l4) =>
                                -- verification fetch; its errors are swallowed
                                (.ok (), l4)
  | _ => (.error "non-integer jt id", log)

/-- Embedding of `migrate_one(args, obj, notif_secrets_map)`: resolve
references (the execution environment is forced), fetch the survey, find
or create the target job template, then run the attachment stages.  The
second component is the log of mutating calls performed. -/
def migrate_one (o : JtOracle) (a : JtArgs) (obj : PyDict)
    (secrets_map : List (String × PyDict)) : Except String Unit × List JtAction :=
  let proj_name := summaryName obj "project"
  let inv_name := summaryName obj "inventory"
  match ensure_refs o a.org proj_name inv_name a.force_ee_id with
  | .error e => (.error e, [])
  | .ok refs =>
      match getIdInt obj with
      | .error e => (.error e, [])
      | .ok srcId =>
          let survey := o.surveySpec srcId
          match o.findJt (jtName obj) with
          | .error e => (.error e, [])
          | .ok (some ex) =>
              migrateOneRest o a obj srcId survey refs.2.1
                (pyGetD ex "id" .none) [] secrets_map
          | .ok Option.none =>
              if a.dry_run then (.ok (), [])
              else
                let payload := jt_payload_from_awx obj a.org refs.1 refs.2.1 refs.2.2
                match o.createJt payload with
                | .error e => (.error e, [])
                | .ok created =>
                    migrateOneRest o a obj srcId survey refs.2.1
                      (pyGetD created "id" .none) [.createJt payload] secrets_map

/-- Embedding of `filt(name, inc, exc)` (identical in shape to
`should_migrate` of the project script). -/
def filt (name : String) (inc exc : Option (String → Bool)) : Bool :=
  if (match inc with | some f => !f name | Option.none => false) then false
  else if (match exc with | some g => g name | Option.none => false) then false
  else true

/-- Result of a bulk job-template run. -/
structure JtRunResult where
  migrated : Nat
  filtered : Nat
  failed : Nat
  log : List JtAction

/-- The bulk loop of `main()`: per-entity exceptions are caught, counted
as failures, and processing continues. -/
def jtBulkLoop (o : JtOracle) (a : JtArgs) (inc exc : Option (String → Bool))
    (secrets_map : List (String × PyDict)) (acc : JtRunResult) :
    List PyDict → JtRunResult
  | [] => acc
  | obj :: rest =>
      if !filt (jtName obj) inc exc then
        jtBulkLoop o a inc exc secrets_map
          ⟨acc.migrated, acc.filtered + 1, acc.failed, acc.log⟩ rest
      else
        match migrate_one o a obj secrets_map with
        | (.ok _, l) =>
            jtBulkLoop o a inc exc secrets_map
              ⟨acc.migrated + 1, acc.filtered, acc.failed, acc.log ++ l⟩ rest
        | (.error _, l) =>
            jtBulkLoop o a inc exc secrets_map
              ⟨acc.migrated, acc.filtered, acc.failed + 1, acc.log ++ l⟩ rest

/-- Embedding of the bulk path of `main()` with its exit code
(0 on zero failures, 2 otherwise). -/
def run_jt_bulk (o : JtOracle) (a : JtArgs) (inc exc : Option (String → Bool))
    (secrets_map : List (String × PyDict)) (objs : List PyDict) :
    JtRunResult × Int :=
  let r := jtBulkLoop o a inc exc secrets_map ⟨0, 0, 0, []⟩ objs
  (r, if r.failed = 0 then 0 else 2)

/-- Count of job templates passing the include/exclude filter. -/
def countNonFilteredJt (inc exc : Option (String → Bool)) (objs : List PyDict) : Nat :=
  (objs.filter (fun obj => filt (jtName obj) inc exc)).length

/-- Count of job templates rejected by the include/exclude filter. -/
def countFilteredJt (inc exc : Option (String → Bool)) (objs : List PyDict) : Nat :=
  (objs.filter (fun obj => !filt (jtName obj) inc exc)).length

theorem ensureRefsInv_no_ee (o : JtOracle) (org : Int) (p : Option Int)
    (inn : Option String) :
    ∃ e, ensureRefsInv o org p inn Option.none = .error e := by
  cases inn with
  | none =>
      exact ⟨"You must supply --force-ee-id to set the Execution Environment by API id.", rfl⟩
  | some iname =>
      rcases h : o.qOne "inventories" iname with e | r
      · exact ⟨e, by simp [ensureRefsInv, h]⟩
      · cases r with
        | none =>
            exact ⟨"Inventory '" ++ iname ++ "' not found in AAP org " ++ toString org,
              by simp [ensureRefsInv, h]⟩
        | some i =>
            rcases hg : getIdInt i with e | iid
            · exact ⟨e, by simp [ensureRefsInv, h, hg]⟩
            · exact ⟨"You must supply --force-ee-id to set the Execution Environment by API id.",
                by simp [ensureRefsInv, h, hg, ensureRefsEE]⟩

theorem ensure_refs_no_ee (o : JtOracle) (org : Int) (pn inn : Option String) :
    ∃ e, ensure_refs o org pn inn Option.none = .error e := by
  cases pn with
  | none =>
      obtain ⟨e, he⟩ := ensureRefsInv_no_ee o org Option.none inn
      exact ⟨e, by simp [ensure_refs, he]⟩
  | some pname =>
      rcases h : o.qOne "projects" pname with e | r
      · exact ⟨e, by simp [ensure_refs, h]⟩
      · cases r with
        | none =>
            exact ⟨"Project '" ++ pname ++ "' not found in AAP org " ++ toString org,
              by simp [ensure_refs, h]⟩
        | some p =>
            rcases hg : getIdInt p with e | pid
            · exact ⟨e, by simp [ensure_refs, h, hg]⟩
            · obtain ⟨e, he⟩ := ensureRefsInv_no_ee o org (some pid) inn
              exact ⟨e, by simp [ensure_refs, h, hg, he]⟩

/-- Without the execution-environment override, `migrate_one` raises in
`ensure_refs` before performing any mutating call. -/
theorem migrate_one_no_ee (o : JtOracle) (a : JtArgs) (obj : PyDict)
    (sm : List (String × PyDict)) (h : a.force_ee_id = Option.none) :
    (migrate_one o a obj sm).2 = [] ∧
    ∃ e, (migrate_one o a obj sm).1 = .error e := by
  obtain ⟨e, he⟩ := ensure_refs_no_ee o a.org (summaryName obj "project")
    (summaryName obj "inventory")
  constructor
  · simp [migrate_one, h, he]
  · exact ⟨e, by simp [migrate_one, h, he]⟩

theorem jtBulkLoop_no_ee (o : JtOracle) (a : JtArgs)
    (inc exc : Option (String → Bool)) (sm : List (String × PyDict))
    (objs : List PyDict) (acc : JtRunResult) (hee : a.force_ee_id = Option.none) :
    (jtBulkLoop o a inc exc sm acc objs).migrated = acc.migrated ∧
    (jtBulkLoop o a inc exc sm acc objs).filtered =
      acc.filtered + countFilteredJt inc exc objs ∧
    (jtBulkLoop o a inc exc sm acc objs).failed =
      acc.failed + countNonFilteredJt inc exc objs ∧
    (jtBulkLoop o a inc exc sm acc objs).log = acc.log := by
  induction objs generalizing acc with
  | nil =>
      simp [jtBulkLoop, countFilteredJt, countNonFilteredJt]
  | cons obj rest ih =>
      cases hm : filt (jtName obj) inc exc
      · have hcf : countFilteredJt inc exc (obj :: rest) =
            countFilteredJt inc exc rest + 1 := by
          simp [countFilteredJt, List.filter_cons, hm]
        have hcn : countNonFilteredJt inc exc (obj :: rest) =
            countNonFilteredJt inc exc rest := by
          simp [countNonFilteredJt, List.filter_cons, hm]
        simp only [jtBulkLoop, hm, Bool.not_false, if_true]
        have := ih ⟨acc.migrated, acc.filtered + 1, acc.failed, acc.log⟩
        rw [hcf, hcn]
        refine ⟨this.1, ?_, ?_, this.2.2.2⟩
        · rw [this.2.1]
          show acc.filtered + 1 + _ = _
          omega
        · rw [this.2.2.1]
      · obtain ⟨hl, e, he⟩ := migrate_one_no_ee o a obj sm hee
        have hpair : migrate_one o a obj sm = (Except.error e, []) := by
          have h3 : migrate_one o a obj sm =
              ((migrate_one o a obj sm).1, (migrate_one o a obj sm).2) := rfl
          rw [h3, hl, he]
        have hcf : countFilteredJt inc exc (obj :: rest) =
            countFilteredJt inc exc rest := by
          simp [countFilteredJt, List.filter_cons, hm]
        have hcn : countNonFilteredJt inc exc (obj :: rest) =
            countNonFilteredJt inc exc rest + 1 := by
          simp [countNonFilteredJt, List.filter_cons, hm]
        simp only [jtBulkLoop, hm, Bool.not_true, Bool.false_eq_true, if_false, hpair,
          List.append_nil]
        have := ih ⟨acc.migrated, acc.filtered, acc.failed + 1, acc.log⟩
        rw [hcf, hcn]
        refine ⟨this.1, this.2.1, ?_, this.2.2.2⟩
        rw [this.2.2.1]
        show acc.failed + 1 + _ = _
        omega

/-- C6 amended. When the execution-environment override is missing, the
run is not aborted before processing: every non-filtered entity is
processed, fails with the configuration error raised in `ensure_refs`
(before any lookup-dependent mutation), and is recorded as a per-entity
failure; no entity is migrated, no mutating call is made, and the run ends
through the normal summary path with exit code 2 when at least one entity
failed (0 when everything was filtered). -/
theorem missing_ee_run_spec (o : JtOracle) (a : JtArgs)
    (inc exc : Option (String → Bool)) (sm : List (String × PyDict))
    (objs : List PyDict) (hee : a.force_ee_id = Option.none) :
    (run_jt_bulk o a inc exc sm objs).1.migrated = 0 ∧
    (run_jt_bulk o a inc exc sm objs).1.failed = countNonFilteredJt inc exc objs ∧
    (run_jt_bulk o a inc exc sm objs).1.filtered = countFilteredJt inc exc objs ∧
    (run_jt_bulk o a inc exc sm objs).1.log = [] ∧
    (run_jt_bulk o a inc exc sm objs).2 =
      (if countNonFilteredJt inc exc objs = 0 then 0 else 2) := by
  have h := jtBulkLoop_no_ee o a inc exc sm objs ⟨0, 0, 0, []⟩ hee
  refine ⟨by simpa using h.1, by simpa using h.2.2.1, by simpa using h.2.1,
    by simpa using h.2.2.2, ?_⟩
  show (if (jtBulkLoop o a inc exc sm ⟨0, 0, 0, []⟩ objs).failed = 0
        then (0 : Int) else 2) = _
  rw [h.2.2.1]
  simp

/-- One of the two job templates of the C6 scenario. -/
def c6Jt1 : PyDict := [("id", .int 11), ("name", .str "T1")]

/-- The other job template of the C6 scenario. -/
def c6Jt2 : PyDict := [("id", .int 12), ("name", .str "T2")]

/-- An AAP/AWX oracle for the C6 scenario (never consulted before the
configuration error fires). -/
def c6Oracle : JtOracle :=
  ⟨fun _ _ => .ok Option.none, fun _ => .ok [], fun _ => .ok [],
   fun _ => .ok Option.none, fun _ => Option.none, fun _ => .ok [],
   fun _ _ => .ok [], fun _ _ => .ok [], fun _ => .ok [], fun _ => .ok [],
   fun _ _ => .ok Option.none, fun _ _ => .ok [], fun _ => .ok ([], [], []),
   fun _ => .ok Option.none, fun _ => .ok [], fun _ _ _ => .ok [],
   fun _ => .ok [], fun _ _ _ => Option.none, fun _ => .ok [],
   fun _ => Option.none⟩

/-- The run parameters of the C6 scenario: no `--force-ee-id`. -/
def c6Args : JtArgs :=
  ⟨"https://aap", 1, false, false, false, Option.none, Option.none⟩

/-- Counterexample to C6 as stated: with the execution-environment
override missing, the bulk run does not abort before any entity is
processed — both listed entities are processed, each records a per-entity
failure outcome, and the run finishes through the summary path with exit
code 2. -/
theorem config_error_abort_counterexample :
    run_jt_bulk c6Oracle c6Args Option.none Option.none [] [c6Jt1, c6Jt2] =
      (⟨0, 0, 2, []⟩, 2) ∧
    ¬((run_jt_bulk c6Oracle c6Args Option.none Option.none []
        [c6Jt1, c6Jt2]).1.failed = 0) := by
  constructor
  · rfl
  · intro hcontra
    rw [show (run_jt_bulk c6Oracle c6Args Option.none Option.none []
        [c6Jt1, c6Jt2]).1.failed = 2 from rfl] at hcontra
    exact absurd hcontra (by decide)

/-- Witness for the amended C6 theorem: on the two-entity scenario the run
records zero migrations, two failures, an empty action log and exit code
2, by instantiating the missing-override theorem. -/
theorem missing_ee_run_spec_witness :
    (run_jt_bulk c6Oracle c6Args Option.none Option.none [] [c6Jt1, c6Jt2]).1.migrated = 0 ∧
    (run_jt_bulk c6Oracle c6Args Option.none Option.none [] [c6Jt1, c6Jt2]).1.failed =
      countNonFilteredJt Option.none Option.none [c6Jt1, c6Jt2] ∧
    (run_jt_bulk c6Oracle c6Args Option.none Option.none [] [c6Jt1, c6Jt2]).1.filtered =
      countFilteredJt Option.none Option.none [c6Jt1, c6Jt2] ∧
    (run_jt_bulk c6Oracle c6Args Option.none Option.none [] [c6Jt1, c6Jt2]).1.log = [] ∧
    (run_jt_bulk c6Oracle c6Args Option.none Option.none [] [c6Jt1, c6Jt2]).2 =
      (if countNonFilteredJt Option.none Option.none [c6Jt1, c6Jt2] = 0 then 0 else 2) := by
  exact missing_ee_run_spec c6Oracle c6Args Option.none Option.none []
    [c6Jt1, c6Jt2] (by rfl)

/-! Character-level facts used by the URL-normalizer recovery lemmas. -/

theorem myUInt32_inj (a b : UInt32) (h : a.toNat = b.toNat) : a = b := by
  cases a
  cases b
  simp only [UInt32.toNat] at h
  congr 1
  exact BitVec.eq_of_toNat_eq h

theorem char_toNat_inj (a b : Char) (h : a.toNat = b.toNat) : a = b :=
  Char.ext (myUInt32_inj _ _ h)

theorem char_eq_iff_toNat (c d : Char) : c = d ↔ c.toNat = d.toNat :=
  ⟨fun h => h ▸ rfl, fun h => char_toNat_inj c d h⟩

theorem char_le_iff (c d : Char) : c ≤ d ↔ c.toNat ≤ d.toNat :=
  Char.le_def.trans UInt32.le_def

theorem char_ne_of_toNat_ne (d e : Char) (h : d.toNat ≠ e.toNat) : d ≠ e :=
  fun he => h (congrArg Char.toNat he)

theorem toLower_toNat (c : Char) :
    c.toLower.toNat = if 65 ≤ c.toNat ∧ c.toNat ≤ 90 then c.toNat + 32 else c.toNat := by
  simp only [Char.toLower]
  by_cases h : c.toNat ≥ 65 ∧ c.toNat ≤ 90
  · rw [if_pos h, if_pos ⟨h.1, h.2⟩]
    have hv : (c.toNat + 32).isValidChar := Or.inl (by omega)
    rw [Char.ofNat, dif_pos hv]
    cases hv with
    | inl hl => rfl
    | inr hr => rfl
  · rw [if_neg h, if_neg h]

theorem toLower_eq_self (c : Char) (h : ¬(65 ≤ c.toNat ∧ c.toNat ≤ 90)) :
    c.toLower = c :=
  char_toNat_inj _ _ (by rw [toLower_toNat, if_neg h])

theorem toLower_idem (c : Char) : c.toLower.toLower = c.toLower := by
  apply char_toNat_inj
  rw [toLower_toNat, toLower_toNat]
  split_ifs <;> omega

theorem pyLowerList_idem (l : List Char) : pyLowerList (pyLowerList l) = pyLowerList l := by
  induction l with
  | nil => rfl
  | cons c cs ih =>
      simp only [pyLowerList, List.map_cons] at *
      rw [toLower_idem]
      exact congrArg _ ih

theorem isPySpace_toNat_of (c : Char) (h : isPySpace c = true) :
    c.toNat = 32 ∨ c.toNat = 9 ∨ c.toNat = 10 ∨ c.toNat = 13 ∨ c.toNat = 11 ∨
    c.toNat = 12 ∨ c.toNat = 28 ∨ c.toNat = 29 ∨ c.toNat = 30 ∨ c.toNat = 31 ∨
    c.toNat = 133 ∨ c.toNat = 160 := by
  simp only [isPySpace, Bool.or_eq_true, decide_eq_true_eq] at h
  rcases h with ((((((((((h|h)|h)|h)|h)|h)|h)|h)|h)|h)|h)|h <;> subst h <;> decide

theorem isPySpace_false_of_toNat (c : Char)
    (h : ¬(c.toNat = 32 ∨ c.toNat = 9 ∨ c.toNat = 10 ∨ c.toNat = 13 ∨ c.toNat = 11 ∨
           c.toNat = 12 ∨ c.toNat = 28 ∨ c.toNat = 29 ∨ c.toNat = 30 ∨ c.toNat = 31 ∨
           c.toNat = 133 ∨ c.toNat = 160)) : isPySpace c = false := by
  cases hs : isPySpace c with
  | false => rfl
  | true => exact absurd (isPySpace_toNat_of c hs) h

theorem isUnsafe_imp_space (c : Char) (h : isUnsafeUrlByte c = true) : isPySpace c = true := by
  simp only [isUnsafeUrlByte, Bool.or_eq_true, decide_eq_true_eq] at h
  rcases h with (h|h)|h <;> subst h <;> decide

theorem unsafe_false_of_space_false (c : Char) (h : isPySpace c = false) :
    (!isUnsafeUrlByte c) = true := by
  cases hu : isUnsafeUrlByte c with
  | false => rfl
  | true => rw [isUnsafe_imp_space c hu] at h; exact absurd h (by decide)

theorem isAsciiAlphaCh_toNat_of (c : Char) (h : isAsciiAlphaCh c = true) :
    (65 ≤ c.toNat ∧ c.toNat ≤ 90) ∨ (97 ≤ c.toNat ∧ c.toNat ≤ 122) := by
  have h97 : ('a').toNat = 97 := rfl
  have h122 : ('z').toNat = 122 := rfl
  have h65 : ('A').toNat = 65 := rfl
  have h90 : ('Z').toNat = 90 := rfl
  simp only [isAsciiAlphaCh, Bool.or_eq_true, Bool.and_eq_true, decide_eq_true_eq,
    char_le_iff] at h
  omega

theorem isAsciiAlphaCh_of_toNat (c : Char)
    (h : (65 ≤ c.toNat ∧ c.toNat ≤ 90) ∨ (97 ≤ c.toNat ∧ c.toNat ≤ 122)) :
    isAsciiAlphaCh c = true := by
  have h97 : ('a').toNat = 97 := rfl
  have h122 : ('z').toNat = 122 := rfl
  have h65 : ('A').toNat = 65 := rfl
  have h90 : ('Z').toNat = 90 := rfl
  simp only [isAsciiAlphaCh, Bool.or_eq_true, Bool.and_eq_true, decide_eq_true_eq,
    char_le_iff]
  omega

theorem isSchemeChar_toNat_of (c : Char) (h : isSchemeChar c = true) :
    (65 ≤ c.toNat ∧ c.toNat ≤ 90) ∨ (97 ≤ c.toNat ∧ c.toNat ≤ 122) ∨
    (48 ≤ c.toNat ∧ c.toNat ≤ 57) ∨ c.toNat = 43 ∨ c.toNat = 45 ∨ c.toNat = 46 := by
  have h48 : ('0').toNat = 48 := rfl
  have h57 : ('9').toNat = 57 := rfl
  simp only [isSchemeChar, Bool.or_eq_true, decide_eq_true_eq] at h
  rcases h with (((h | h) | h) | h) | h
  · rcases isAsciiAlphaCh_toNat_of c h with h | h
    · exact Or.inl h
    · exact Or.inr (Or.inl h)
  · simp only [Char.isDigit, Bool.and_eq_true, decide_eq_true_eq] at h
    exact Or.inr (Or.inr (Or.inl ⟨h.1, h.2⟩))
  · subst h; decide
  · subst h; decide
  · subst h; decide

theorem isSchemeChar_of_alpha (c : Char) (h : isAsciiAlphaCh c = true) :
    isSchemeChar c = true := by
  simp only [isSchemeChar, Bool.or_eq_true]
  exact Or.inl (Or.inl (Or.inl (Or.inl h)))

theorem isAsciiAlphaCh_toLower (c : Char) (h : isAsciiAlphaCh c = true) :
    isAsciiAlphaCh c.toLower = true := by
  apply isAsciiAlphaCh_of_toNat
  rw [toLower_toNat]
  rcases isAsciiAlphaCh_toNat_of c h with h' | h' <;> split_ifs <;> omega

theorem isSchemeChar_toLower (c : Char) (h : isSchemeChar c = true) :
    isSchemeChar c.toLower = true := by
  rcases isSchemeChar_toNat_of c h with h' | h' | h' | h' | h' | h'
  · exact isSchemeChar_of_alpha _ (isAsciiAlphaCh_of_toNat _ (by rw [toLower_toNat, if_pos h']; omega))
  · rw [toLower_eq_self c (by omega)]; exact h
  · rw [toLower_eq_self c (by omega)]; exact h
  · rw [toLower_eq_self c (by omega)]; exact h
  · rw [toLower_eq_self c (by omega)]; exact h
  · rw [toLower_eq_self c (by omega)]; exact h


/-! List-level helper lemmas for the URL recovery argument. -/

theorem findIdx_append_cons (q : Char → Bool) (s r : List Char) (a : Char)
    (hs : ∀ x ∈ s, q x = false) (ha : q a = true) :
    (s ++ a :: r).findIdx? q = some s.length := by
  induction s with
  | nil => simp [List.findIdx?_cons, ha]
  | cons c cs ih =>
      have hc : q c = false := hs c (by simp)
      have ih' := ih (fun x hx => hs x (by simp [hx]))
      rw [List.cons_append, List.findIdx?_cons, hc]
      simp only [Bool.false_eq_true, if_false]
      rw [List.findIdx?_succ, ih']
      simp

theorem findIdx_eq_none (q : Char → Bool) (l : List Char)
    (h : ∀ x ∈ l, q x = false) : l.findIdx? q = Option.none := by
  induction l with
  | nil => rfl
  | cons c cs ih =>
      have hc : q c = false := h c (by simp)
      rw [List.findIdx?_cons, hc]
      simp only [Bool.false_eq_true, if_false]
      rw [List.findIdx?_succ, ih (fun x hx => h x (by simp [hx]))]
      rfl

theorem drop_append_cons (s r : List Char) (a : Char) :
    (s ++ a :: r).drop (s.length + 1) = r := by
  induction s with
  | nil => rfl
  | cons c cs ih => simp only [List.cons_append, List.length_cons, List.drop_succ_cons]; exact ih

theorem takeWhile_append_split (q : Char → Bool) (xs ys : List Char)
    (hxs : ∀ x ∈ xs, q x = true)
    (hys : ys = [] ∨ ∃ c t, ys = c :: t ∧ q c = false) :
    (xs ++ ys).takeWhile q = xs ∧ (xs ++ ys).dropWhile q = ys := by
  induction xs with
  | nil =>
      rcases hys with h | ⟨c, t, ht, hc⟩
      · subst h; exact ⟨rfl, rfl⟩
      · subst ht
        constructor
        · rw [List.nil_append, List.takeWhile_cons, hc]
          simp
        · rw [List.nil_append, List.dropWhile_cons, hc]
          simp
  | cons x xs ih =>
      have hx : q x = true := hxs x (by simp)
      have ih' := ih (fun y hy => hxs y (by simp [hy]))
      constructor
      · rw [List.cons_append, List.takeWhile_cons, hx]
        simp only [if_true]
        exact congrArg _ ih'.1
      · rw [List.cons_append, List.dropWhile_cons, hx]
        simp only [if_true]
        exact ih'.2

theorem takeWhile_all (q : Char → Bool) (l : List Char) (h : ∀ x ∈ l, q x = true) :
    l.takeWhile q = l :=
  List.takeWhile_eq_self_iff.mpr h

theorem dropWhile_all (q : Char → Bool) (l : List Char) (h : ∀ x ∈ l, q x = true) :
    l.dropWhile q = [] :=
  List.dropWhile_eq_nil_iff.mpr h

theorem dropWhile_id_of_false (q : Char → Bool) (l : List Char)
    (h : ∀ x ∈ l, q x = false) : l.dropWhile q = l := by
  cases l with
  | nil => rfl
  | cons c cs =>
      rw [List.dropWhile_cons, h c (by simp)]
      simp

theorem contains_false (l : List Char) (a : Char) (h : ∀ x ∈ l, x ≠ a) :
    l.contains a = false := by
  induction l with
  | nil => rfl
  | cons c cs ih =>
      rw [List.contains_cons]
      have hc : (a == c) = false := beq_eq_false_iff_ne.mpr (Ne.symm (h c (by simp)))
      rw [hc, ih (fun x hx => h x (by simp [hx]))]
      rfl

theorem pyStripList_id (l : List Char) (h : ∀ x ∈ l, isPySpace x = false) :
    pyStripList l = l := by
  unfold pyStripList
  rw [dropWhile_id_of_false _ _ h,
      dropWhile_id_of_false _ _ (fun x hx => h x (List.mem_reverse.mp hx)),
      List.reverse_reverse]

/-! Well-formed raw URL fragments: a scheme, a host and a path drawn from
character classes on which the parser's splitting is transparent. -/

/-- A well-formed scheme: nonempty, leading ASCII letter, all characters in
`scheme_chars`. -/
def schemeOK (s : List Char) : Bool :=
  match s with
  | [] => false
  | c :: _ => isAsciiAlphaCh c && s.all isSchemeChar

/-- A host character: ASCII, not a separator that `urlsplit`, `_hostinfo`,
`hostname` or `_splitparams` react to, and not whitespace. -/
def hostCharOK (c : Char) : Bool :=
  !(c = '/' || c = '?' || c = '#' || c = '@' || c = '[' || c = ']' ||
    c = ':' || c = '%' || c = ';') &&
  !isPySpace c && decide (c.toNat < 128)

/-- A well-formed host: nonempty with all characters `hostCharOK`. -/
def hostOK (h : List Char) : Bool :=
  !h.isEmpty && h.all hostCharOK

/-- A path character: not a query/fragment/params separator and not
whitespace. -/
def pathCharOK (c : Char) : Bool :=
  !(c = '?' || c = '#' || c = ';') && !isPySpace c

/-- A well-formed path: empty, or `/`-led with all characters `pathCharOK`. -/
def pathOK (p : List Char) : Bool :=
  match p with
  | [] => true
  | c :: _ => c = '/' && p.all pathCharOK

/-- Assembling a raw URL `scheme://host path` from its three parts. -/
def renderUrl (s h p : List Char) : List Char :=
  s ++ ':' :: '/' :: '/' :: (h ++ p)


/-! Consequences of the character classes. -/

theorem hostCharOK_spec (c : Char) (hc : hostCharOK c = true) :
    c ≠ '/' ∧ c ≠ '?' ∧ c ≠ '#' ∧ c ≠ '@' ∧ c ≠ '[' ∧ c ≠ ']' ∧ c ≠ ':' ∧
    c ≠ '%' ∧ c ≠ ';' ∧ isPySpace c = false := by
  simp only [hostCharOK, Bool.and_eq_true, Bool.not_eq_true', Bool.or_eq_false_iff,
    decide_eq_false_iff_not, decide_eq_true_eq] at hc
  tauto

theorem pathCharOK_spec (c : Char) (hc : pathCharOK c = true) :
    c ≠ '?' ∧ c ≠ '#' ∧ c ≠ ';' ∧ isPySpace c = false := by
  simp only [pathCharOK, Bool.and_eq_true, Bool.not_eq_true', Bool.or_eq_false_iff,
    decide_eq_false_iff_not] at hc
  tauto

theorem schemeChar_not_colon (x : Char) (hx : isSchemeChar x = true) :
    (decide (x = ':')) = false := by
  have h58 : (':').toNat = 58 := rfl
  have := isSchemeChar_toNat_of x hx
  exact decide_eq_false (char_ne_of_toNat_ne x ':' (by omega))

theorem schemeChar_not_space (x : Char) (hx : isSchemeChar x = true) :
    isPySpace x = false := by
  have := isSchemeChar_toNat_of x hx
  exact isPySpace_false_of_toNat x (by omega)

theorem schemeOK_parts (s : List Char) (hs : schemeOK s = true) :
    s ≠ [] ∧ isAsciiAlphaCh (s.headD 'a') = true ∧ ∀ x ∈ s, isSchemeChar x = true := by
  cases s with
  | nil => simp [schemeOK] at hs
  | cons c s' =>
      simp only [schemeOK, Bool.and_eq_true, List.all_eq_true] at hs
      exact ⟨by simp, hs.1, hs.2⟩

theorem hostOK_parts (h : List Char) (hh : hostOK h = true) :
    h ≠ [] ∧ ∀ x ∈ h, hostCharOK x = true := by
  simp only [hostOK, Bool.and_eq_true, List.all_eq_true, Bool.not_eq_true'] at hh
  refine ⟨fun hnil => ?_, hh.2⟩
  subst hnil
  exact absurd hh.1 (by decide)

theorem pathOK_parts (p : List Char) (hp : pathOK p = true) :
    (p = [] ∨ ∃ t, p = '/' :: t) ∧ ∀ x ∈ p, pathCharOK x = true := by
  cases p with
  | nil => exact ⟨Or.inl rfl, by simp⟩
  | cons c t =>
      simp only [pathOK, Bool.and_eq_true, List.all_eq_true, decide_eq_true_eq] at hp
      exact ⟨Or.inr ⟨t, by rw [hp.1]⟩, hp.2⟩

/-- On a well-formed rendering the scheme split recovers scheme and rest. -/
theorem splitScheme_render (s r : List Char) (hs : schemeOK s = true) :
    splitScheme (s ++ ':' :: r) = (pyLowerList s, r) := by
  obtain ⟨hne, _, hall⟩ := schemeOK_parts s hs
  obtain ⟨c, s', rfl⟩ : ∃ c s', s = c :: s' := by
    cases s with
    | nil => exact absurd rfl hne
    | cons c s' => exact ⟨c, s', rfl⟩
  have halpha : isAsciiAlphaCh c = true := (schemeOK_parts _ hs).2.1
  have hallb : (c :: s').all isSchemeChar = true := List.all_eq_true.mpr hall
  unfold splitScheme
  rw [findIdx_append_cons _ _ _ _ (fun x hx => schemeChar_not_colon x (hall x hx)) (by simp)]
  dsimp only
  rw [if_pos (by simp)]
  simp only [List.cons_append, List.length_cons, List.take_succ_cons, List.take_left,
    List.drop_succ_cons]
  rw [if_pos (by rw [halpha, hallb]; rfl)]
  rw [drop_append_cons]

/-- On a well-formed rendering `urlsplit` recovers the three parts, with a
lower-cased scheme and empty query and fragment. -/
theorem pyUrlsplit_render (s h p : List Char)
    (hs : schemeOK s = true) (hh : hostOK h = true) (hp : pathOK p = true) :
    pyUrlsplit (renderUrl s h p) = .ok (pyLowerList s, h, p, [], []) := by
  obtain ⟨_, _, hsall⟩ := schemeOK_parts s hs
  obtain ⟨hhne, hhall⟩ := hostOK_parts h hh
  obtain ⟨hpshape, hpall⟩ := pathOK_parts p hp
  have hfilter : (renderUrl s h p).filter (fun c => !isUnsafeUrlByte c) = renderUrl s h p := by
    apply List.filter_eq_self.mpr
    intro a ha
    simp only [renderUrl, List.mem_append, List.mem_cons] at ha
    rcases ha with ha | ha | ha | ha | ha
    · exact unsafe_false_of_space_false a (schemeChar_not_space a (hsall a ha))
    · subst ha; decide
    · subst ha; decide
    · subst ha; decide
    · rcases ha with ha | ha
      · exact unsafe_false_of_space_false a (hostCharOK_spec a (hhall a ha)).2.2.2.2.2.2.2.2.2
      · exact unsafe_false_of_space_false a (pathCharOK_spec a (hpall a ha)).2.2.2
  have hsplit : splitScheme (renderUrl s h p) = (pyLowerList s, '/' :: '/' :: (h ++ p)) :=
    splitScheme_render s ('/' :: '/' :: (h ++ p)) hs
  have hnl := takeWhile_append_split (fun c => !isNetlocDelim c) h p
    (fun x hx => by
      obtain ⟨h1, h2, h3, _⟩ := hostCharOK_spec x (hhall x hx)
      simp [isNetlocDelim, h1, h2, h3])
    (by
      rcases hpshape with h0 | ⟨t, h0⟩
      · exact Or.inl h0
      · exact Or.inr ⟨'/', t, h0, by simp [isNetlocDelim]⟩)
  have hbr1 : '[' ∉ h := fun hmem => (hostCharOK_spec _ (hhall _ hmem)).2.2.2.2.1 rfl
  have hbr2 : ']' ∉ h := fun hmem => (hostCharOK_spec _ (hhall _ hmem)).2.2.2.2.2.1 rfl
  have hpf : '#' ∉ p := fun hmem => (pathCharOK_spec _ (hpall _ hmem)).2.1 rfl
  have hpq : '?' ∉ p := fun hmem => (pathCharOK_spec _ (hpall _ hmem)).1 rfl
  unfold pyUrlsplit
  dsimp only
  rw [hfilter, hsplit]
  simp [hnl.1, hnl.2, hbr1, hbr2, hpf, hpq, bind, Except.bind, pure, Except.pure]


/-- On a well-formed rendering `urlparse` agrees with `urlsplit` (the path
holds no `;`, so no params are split off). -/
theorem pyUrlparse_render (s h p : List Char)
    (hs : schemeOK s = true) (hh : hostOK h = true) (hp : pathOK p = true) :
    pyUrlparse (renderUrl s h p) = .ok (pyLowerList s, h, p, [], []) := by
  have hsem : ';' ∉ p :=
    fun hm => (pathCharOK_spec _ ((pathOK_parts p hp).2 _ hm)).2.2.1 rfl
  unfold pyUrlparse
  dsimp only
  rw [pyUrlsplit_render s h p hs hh hp]
  simp [bind, Except.bind, pure, Except.pure, hsem]

/-- `_hostinfo` is transparent on a well-formed host: no userinfo, no
bracketed address, no port. -/
theorem hostinfoOf_wf (h : List Char) (hh : hostOK h = true) :
    hostinfoOf h = (h, Option.none) := by
  obtain ⟨hne, hall⟩ := hostOK_parts h hh
  have hat : ∀ x ∈ h.reverse, (decide (x = '@')) = false := fun x hx =>
    decide_eq_false ((hostCharOK_spec _ (hall _ (List.mem_reverse.mp hx))).2.2.2.1)
  have hbr : '[' ∉ h := fun hmem => (hostCharOK_spec _ (hall _ hmem)).2.2.2.2.1 rfl
  have hcol : ∀ x ∈ h, (decide (x ≠ ':')) = true := fun x hx => by
    simp [(hostCharOK_spec _ (hall _ hx)).2.2.2.2.2.2.1]
  unfold hostinfoOf
  rw [findIdx_eq_none _ _ hat]
  dsimp only
  rw [takeWhile_all _ _ hcol, dropWhile_all _ _ hcol]
  simp [hbr]

/-- The `hostname` property lower-cases a well-formed host verbatim. -/
theorem hostnameOf_wf (h : List Char) (hh : hostOK h = true) :
    hostnameOf h = some (pyLowerList h) := by
  obtain ⟨hne, hall⟩ := hostOK_parts h hh
  have hpc : ∀ x ∈ h, (decide (x ≠ '%')) = true := fun x hx => by
    simp [(hostCharOK_spec _ (hall _ hx)).2.2.2.2.2.2.2.1]
  unfold hostnameOf
  rw [takeWhile_all _ _ hpc, dropWhile_all _ _ hpc]
  cases h with
  | nil => exact absurd rfl hne
  | cons c t => simp

/-- `urlunsplit` re-renders components whose netloc is nonempty and whose
path is empty or absolute. -/
theorem urlunsplit_render (sc nl pa : List Char) (hsc : sc ≠ []) (hnl : nl ≠ [])
    (hpa : pa = [] ∨ pa.take 1 = ['/']) :
    urlunsplitList sc nl pa [] [] = sc ++ ':' :: '/' :: '/' :: (nl ++ pa) := by
  unfold urlunsplitList
  rw [if_pos (Or.inl hnl)]
  have hu2 : (if pa ≠ [] ∧ pa.take 1 ≠ ['/'] then '/' :: pa else pa) = pa := by
    rcases hpa with h0 | h0
    · rw [if_neg (fun hc => hc.1 h0)]
    · rw [if_neg (fun hc => hc.2 h0)]
  rw [hu2]
  dsimp only
  rw [if_pos hsc, if_neg (by simp), if_neg (by simp)]

theorem strip_git_append (p : List Char) :
    strip_trailing_git (p ++ ".git".data) = p := by
  unfold strip_trailing_git
  rw [if_pos]
  · have h4 : (".git".data).length = 4 := rfl
    rw [List.length_append, h4]
    simp only [Nat.add_sub_cancel]
    exact List.take_left p _
  · simp only [List.isSuffixOf_iff_suffix]
    exact List.suffix_append p _

theorem strip_git_id (p : List Char) (h : ".git".data.isSuffixOf p = false) :
    strip_trailing_git p = p := by
  unfold strip_trailing_git
  rw [if_neg (by simp [h])]

theorem dropWhile_idem (q : Char → Bool) (l : List Char) :
    (l.dropWhile q).dropWhile q = l.dropWhile q := by
  induction l with
  | nil => rfl
  | cons a l ih =>
      rw [List.dropWhile_cons]
      cases hq : q a with
      | true => simp only [if_true]; exact ih
      | false => simp [List.dropWhile_cons, hq]

theorem rstripSlash_append_slash (p : List Char) :
    rstripSlash (p ++ ['/']) = rstripSlash p := by
  unfold rstripSlash
  simp [List.reverse_append, List.dropWhile_cons]

theorem rstripSlash_idem (p : List Char) :
    rstripSlash (rstripSlash p) = rstripSlash p := by
  unfold rstripSlash
  rw [List.reverse_reverse]
  exact congrArg _ (dropWhile_idem _ _)

theorem strip_trailing_git_prefixOf (p : List Char) : strip_trailing_git p <+: p := by
  unfold strip_trailing_git
  split
  · exact List.take_prefix _ _
  · exact List.prefix_refl p

theorem rstripSlash_prefixOf (p : List Char) : rstripSlash p <+: p := by
  unfold rstripSlash
  apply List.reverse_suffix.mp
  rw [List.reverse_reverse]
  exact List.dropWhile_suffix _

theorem prefix_pathOK (p q : List Char) (hq : q <+: p) (hp : pathOK p = true) :
    pathOK q = true := by
  obtain ⟨shape, hall⟩ := pathOK_parts p hp
  cases q with
  | nil => rfl
  | cons c t =>
      have hsub := hq.subset
      obtain ⟨r, hr⟩ := hq
      have hc : c = '/' := by
        rcases shape with h0 | ⟨t', h0⟩
        · rw [h0] at hr; exact absurd hr (by simp)
        · rw [h0] at hr
          simp only [List.cons_append, List.cons.injEq] at hr
          exact hr.1
      simp only [pathOK, Bool.and_eq_true, List.all_eq_true, decide_eq_true_eq]
      exact ⟨hc, fun x hx => hall x (hsub hx)⟩

theorem pathOK_norm (p : List Char) (hp : pathOK p = true) :
    pathOK (rstripSlash (strip_trailing_git p)) = true :=
  prefix_pathOK p _ ((rstripSlash_prefixOf _).trans (strip_trailing_git_prefixOf p)) hp


/-! Closure of the character classes under ASCII lower-casing. -/

theorem hostCharOK_of_letter (d : Char) (hd : 97 ≤ d.toNat ∧ d.toNat ≤ 122) :
    hostCharOK d = true := by
  have c47 : ('/').toNat = 47 := rfl
  have c63 : ('?').toNat = 63 := rfl
  have c35 : ('#').toNat = 35 := rfl
  have c64 : ('@').toNat = 64 := rfl
  have c91 : ('[').toNat = 91 := rfl
  have c93 : (']').toNat = 93 := rfl
  have c58 : (':').toNat = 58 := rfl
  have c37 : ('%').toNat = 37 := rfl
  have c59 : (';').toNat = 59 := rfl
  simp only [hostCharOK, Bool.and_eq_true, Bool.not_eq_true', Bool.or_eq_false_iff,
    decide_eq_false_iff_not, decide_eq_true_eq]
  refine ⟨⟨⟨⟨⟨⟨⟨⟨⟨⟨?_, ?_⟩, ?_⟩, ?_⟩, ?_⟩, ?_⟩, ?_⟩, ?_⟩, ?_⟩,
    isPySpace_false_of_toNat d (by omega)⟩, by omega⟩
  · exact char_ne_of_toNat_ne d '/' (by omega)
  · exact char_ne_of_toNat_ne d '?' (by omega)
  · exact char_ne_of_toNat_ne d '#' (by omega)
  · exact char_ne_of_toNat_ne d '@' (by omega)
  · exact char_ne_of_toNat_ne d '[' (by omega)
  · exact char_ne_of_toNat_ne d ']' (by omega)
  · exact char_ne_of_toNat_ne d ':' (by omega)
  · exact char_ne_of_toNat_ne d '%' (by omega)
  · exact char_ne_of_toNat_ne d ';' (by omega)

theorem hostCharOK_toLower (c : Char) (h : hostCharOK c = true) :
    hostCharOK c.toLower = true := by
  by_cases hup : 65 ≤ c.toNat ∧ c.toNat ≤ 90
  · exact hostCharOK_of_letter _ (by rw [toLower_toNat, if_pos hup]; omega)
  · rw [toLower_eq_self c hup]; exact h

theorem hostOK_lower (h : List Char) (hh : hostOK h = true) :
    hostOK (pyLowerList h) = true := by
  obtain ⟨hne, hall⟩ := hostOK_parts h hh
  cases h with
  | nil => exact absurd rfl hne
  | cons c t =>
      simp only [hostOK, pyLowerList, List.map_cons, List.isEmpty_cons, Bool.not_false,
        Bool.true_and, List.all_eq_true]
      intro x hx
      rw [← List.map_cons, List.mem_map] at hx
      obtain ⟨y, hy, rfl⟩ := hx
      exact hostCharOK_toLower y (hall y hy)

theorem schemeOK_lower (s : List Char) (hs : schemeOK s = true) :
    schemeOK (pyLowerList s) = true := by
  obtain ⟨hne, _, hall⟩ := schemeOK_parts s hs
  cases s with
  | nil => exact absurd rfl hne
  | cons c t =>
      have halpha : isAsciiAlphaCh c = true := (schemeOK_parts _ hs).2.1
      simp only [schemeOK, pyLowerList, List.map_cons, Bool.and_eq_true, List.all_eq_true]
      constructor
      · exact isAsciiAlphaCh_toLower c halpha
      · intro x hx
        rw [← List.map_cons, List.mem_map] at hx
        obtain ⟨y, hy, rfl⟩ := hx
        exact isSchemeChar_toLower y (hall y hy)

/-- Recovery: on a well-formed rendered URL the normalizer lower-cases
scheme and host, strips one trailing `.git` and then trailing slashes from
the path, and reassembles — and never errors. -/
theorem normalize_render (s h p : List Char)
    (hs : schemeOK s = true) (hh : hostOK h = true) (hp : pathOK p = true) :
    normalize_git_url (String.mk (renderUrl s h p)) =
      .ok (String.mk (renderUrl (pyLowerList s) (pyLowerList h)
        (rstripSlash (strip_trailing_git p)))) := by
  obtain ⟨hsne, _, hsall⟩ := schemeOK_parts s hs
  obtain ⟨hhne, hhall⟩ := hostOK_parts h hh
  have hpall := (pathOK_parts p hp).2
  have hstrip : pyStripList (renderUrl s h p) = renderUrl s h p := by
    apply pyStripList_id
    intro x hx
    simp only [renderUrl, List.mem_append, List.mem_cons] at hx
    rcases hx with hx | hx | hx | hx | hx
    · exact schemeChar_not_space x (hsall x hx)
    · subst hx; decide
    · subst hx; decide
    · subst hx; decide
    · rcases hx with hx | hx
      · exact (hostCharOK_spec x (hhall x hx)).2.2.2.2.2.2.2.2.2
      · exact (pathCharOK_spec x (hpall x hx)).2.2.2
  have hparse := pyUrlparse_render s h p hs hh hp
  have hhi := hostinfoOf_wf h hh
  have hhn := hostnameOf_wf h hh
  have hlne : pyLowerList s ≠ [] := by
    cases s with
    | nil => exact absurd rfl hsne
    | cons c t => simp [pyLowerList]
  have hlhne : pyLowerList h ≠ [] := by
    cases h with
    | nil => exact absurd rfl hhne
    | cons c t => simp [pyLowerList]
  have hpa : rstripSlash (strip_trailing_git p) = [] ∨
      (rstripSlash (strip_trailing_git p)).take 1 = ['/'] := by
    rcases (pathOK_parts _ (pathOK_norm p hp)).1 with h0 | ⟨t, h0⟩
    · exact Or.inl h0
    · exact Or.inr (by rw [h0]; rfl)
  have hunsplit := urlunsplit_render (pyLowerList s) (pyLowerList h)
    (rstripSlash (strip_trailing_git p)) hlne hlhne hpa
  have hne0 : String.mk (renderUrl s h p) ≠ "" := by
    intro he
    rw [String.ext_iff] at he
    simp [renderUrl] at he
  unfold normalize_git_url
  rw [if_neg hne0]
  dsimp only
  rw [hstrip, hparse]
  simp only [bind, Except.bind, hhi, hhn, portOf]
  simp only [Option.getD_some, pyLowerList_idem, hunsplit]
  rfl


theorem git_not_suffix_slash (p : List Char) :
    ".git".data.isSuffixOf (p ++ ['/']) = false := by
  cases h : ".git".data.isSuffixOf (p ++ ['/']) with
  | false => rfl
  | true =>
      exfalso
      have hs := List.isSuffixOf_iff_suffix.mp h
      have hpre := List.reverse_prefix.mpr hs
      simp only [List.reverse_append, List.reverse_cons, List.reverse_nil,
        List.nil_append, List.singleton_append] at hpre
      obtain ⟨r, hr⟩ := hpre
      simp only [List.append_assoc, List.cons_append, List.nil_append,
        List.cons.injEq] at hr
      exact absurd hr.1 (by decide)

theorem pathOK_append (p q : List Char) (hp : pathOK p = true) (hne : p ≠ [])
    (hq : ∀ x ∈ q, pathCharOK x = true) : pathOK (p ++ q) = true := by
  obtain ⟨shape, hall⟩ := pathOK_parts p hp
  rcases shape with h0 | ⟨t, rfl⟩
  · exact absurd h0 hne
  · simp only [List.cons_append, pathOK, Bool.and_eq_true, List.all_eq_true,
      decide_eq_true_eq]
    refine ⟨trivial, ?_⟩
    intro x hx
    rcases List.mem_cons.mp hx with h1 | h1
    · subst h1; exact hall '/' (by simp)
    · rcases List.mem_append.mp h1 with h2 | h2
      · exact hall x (by simp [h2])
      · exact hq x h2

/-- C2: over well-formed `scheme://host/path` URLs, appending a trailing
`.git` to a `.git`-free path, appending a trailing slash to a `.git`-free
path, or changing the letter case of scheme or host leaves the natural key
unchanged, while paths that still differ after the normalizer's own
`.git`/slash stripping produce different keys. -/
theorem url_pair_key_equivalence :
    (∀ s h p, schemeOK s = true → hostOK h = true → pathOK p = true → p ≠ [] →
      ".git".data.isSuffixOf p = false →
      normalize_git_url (String.mk (renderUrl s h (p ++ ".git".data))) =
        normalize_git_url (String.mk (renderUrl s h p))) ∧
    (∀ s h p, schemeOK s = true → hostOK h = true → pathOK p = true → p ≠ [] →
      ".git".data.isSuffixOf p = false →
      normalize_git_url (String.mk (renderUrl s h (p ++ ['/']))) =
        normalize_git_url (String.mk (renderUrl s h p))) ∧
    (∀ s₁ h₁ s₂ h₂ p, schemeOK s₁ = true → hostOK h₁ = true →
      schemeOK s₂ = true → hostOK h₂ = true → pathOK p = true →
      pyLowerList s₁ = pyLowerList s₂ → pyLowerList h₁ = pyLowerList h₂ →
      normalize_git_url (String.mk (renderUrl s₁ h₁ p)) =
        normalize_git_url (String.mk (renderUrl s₂ h₂ p))) ∧
    (∀ s h p₁ p₂, schemeOK s = true → hostOK h = true →
      pathOK p₁ = true → pathOK p₂ = true →
      rstripSlash (strip_trailing_git p₁) ≠ rstripSlash (strip_trailing_git p₂) →
      normalize_git_url (String.mk (renderUrl s h p₁)) ≠
        normalize_git_url (String.mk (renderUrl s h p₂))) := by
  refine ⟨?_, ?_, ?_, ?_⟩
  · intro s h p hs hh hp hne hgit
    have hq : ∀ x ∈ ".git".data, pathCharOK x = true := by decide
    rw [normalize_render s h _ hs hh (pathOK_append p _ hp hne hq),
        normalize_render s h p hs hh hp,
        strip_git_append, strip_git_id p hgit]
  · intro s h p hs hh hp hne hgit
    have hq : ∀ x ∈ ['/'], pathCharOK x = true := by decide
    rw [normalize_render s h _ hs hh (pathOK_append p _ hp hne hq),
        normalize_render s h p hs hh hp,
        strip_git_id _ (git_not_suffix_slash p), strip_git_id p hgit,
        rstripSlash_append_slash]
  · intro s₁ h₁ s₂ h₂ p hs₁ hh₁ hs₂ hh₂ hp hls hlh
    rw [normalize_render s₁ h₁ p hs₁ hh₁ hp, normalize_render s₂ h₂ p hs₂ hh₂ hp,
        hls, hlh]
  · intro s h p₁ p₂ hs hh hp₁ hp₂ hne heq
    rw [normalize_render s h p₁ hs hh hp₁, normalize_render s h p₂ hs hh hp₂] at heq
    simp only [Except.ok.injEq] at heq
    have hdata := congrArg String.data heq
    simp only [renderUrl] at hdata
    have h1 := List.append_cancel_left hdata
    simp only [List.cons.injEq, true_and] at h1
    exact hne (List.append_cancel_left h1)

theorem url_pair_key_equivalence_witness :
    (normalize_git_url (String.mk (renderUrl "https".data "host".data
        ("/r".data ++ ".git".data))) =
      normalize_git_url (String.mk (renderUrl "https".data "host".data "/r".data))) ∧
    (normalize_git_url (String.mk (renderUrl "https".data "host".data
        ("/r".data ++ ['/']))) =
      normalize_git_url (String.mk (renderUrl "https".data "host".data "/r".data))) ∧
    (normalize_git_url (String.mk (renderUrl "HTTPS".data "HoSt".data "/Repo".data)) =
      normalize_git_url (String.mk (renderUrl "https".data "host".data "/Repo".data))) ∧
    (normalize_git_url (String.mk (renderUrl "https".data "host".data "/a".data)) ≠
      normalize_git_url (String.mk (renderUrl "https".data "host".data "/b".data))) :=
  ⟨url_pair_key_equivalence.1 "https".data "host".data "/r".data
      (by decide) (by decide) (by decide) (by decide) (by decide),
   url_pair_key_equivalence.2.1 "https".data "host".data "/r".data
      (by decide) (by decide) (by decide) (by decide) (by decide),
   url_pair_key_equivalence.2.2.1 "HTTPS".data "HoSt".data "https".data "host".data
      "/Repo".data (by decide) (by decide) (by decide) (by decide) (by decide)
      (by decide) (by decide),
   url_pair_key_equivalence.2.2.2 "https".data "host".data "/a".data "/b".data
      (by decide) (by decide) (by decide) (by decide) (by decide)⟩

/-- C2 counterexample: `https://host/repo.git` and `https://host/repo.git/`
differ only by a trailing slash yet normalize to different keys, while
`https://host/a` and `https://host/a/` have differing raw paths yet
normalize to the same key. -/
theorem url_pair_key_counterexample :
    normalize_git_url "https://host/repo.git" = .ok "https://host/repo" ∧
    normalize_git_url "https://host/repo.git/" = .ok "https://host/repo.git" ∧
    ("https://host/repo" : String) ≠ "https://host/repo.git" ∧
    normalize_git_url "https://host/a" = .ok "https://host/a" ∧
    normalize_git_url "https://host/a/" = .ok "https://host/a" :=
  ⟨rfl, rfl, by decide, rfl, rfl⟩

/-- C8: on well-formed URLs whose normalized path does not itself end in
`.git`, the key normalizer is idempotent: normalizing a produced key
returns it unchanged. -/
theorem normalize_idempotent_on_keys (s h p : List Char)
    (hs : schemeOK s = true) (hh : hostOK h = true) (hp : pathOK p = true)
    (hgit : ".git".data.isSuffixOf (rstripSlash (strip_trailing_git p)) = false)
    (k : String) (hk : normalize_git_url (String.mk (renderUrl s h p)) = .ok k) :
    normalize_git_url k = .ok k := by
  rw [normalize_render s h p hs hh hp] at hk
  simp only [Except.ok.injEq] at hk
  subst hk
  rw [normalize_render _ _ _ (schemeOK_lower s hs) (hostOK_lower h hh) (pathOK_norm p hp)]
  rw [pyLowerList_idem, pyLowerList_idem, strip_git_id _ hgit, rstripSlash_idem]

theorem normalize_idempotent_on_keys_witness :
    normalize_git_url "http://host/repo" = .ok "http://host/repo" :=
  normalize_idempotent_on_keys "http".data "host".data "/repo/".data
    (by decide) (by decide) (by decide) (by decide) "http://host/repo" (by rfl)

/-- C8 counterexample: normalizing `http://host/repo.git/` yields the key
`http://host/repo.git`, and normalizing that key again strips the now
trailing `.git`, so the normalizer is not idempotent on it. -/
theorem normalize_not_idempotent_counterexample :
    normalize_git_url "http://host/repo.git/" = .ok "http://host/repo.git" ∧
    normalize_git_url "http://host/repo.git" = .ok "http://host/repo" ∧
    ("http://host/repo.git" : String) ≠ "http://host/repo" :=
  ⟨rfl, rfl, by decide⟩

/-- C9: the key normalizer is not total — on `http://h:x/` the `port`
property raises `ValueError: Port could not be cast to integer value as
'x'`, which propagates out of `_normalize_git_url`. -/
theorem normalize_raises_on_malformed_port :
    normalize_git_url "http://h:x/" =
      .error "Port could not be cast to integer value as 'x'" := rfl

end Mig
